import Mathlib

/-!
Verification of the pyclewn session engine against its source.

The development shallowly embeds the parts of the repository the claims
are about:
* `src/lib/clewn/misc.py` — the `quote` / `unquote` escaping helpers;
* `src/clewn/buffer.py`   — the marker store (`Buffer`, the marker values,
  `BufferSet`) together with the outward netbeans messages it emits;
* `src/clewn/gdb.py`      — the line classification and dispatch of
  `Gdb.handle_line`, `default_cmd_processing` and `cmd_sigint`;
* `src/clewn/misc_posix.py` — `ProcessChannel.sendintr` and the pty/pipe
  fallback.

Python machine integers are modelled as `Int`/`Nat`; exceptions are an
explicit `Option Err` result paired with the state at raise time (the
Python code raises before mutating, and the embedding mirrors the same
control flow); the outward netbeans socket is a message list.
-/

namespace Pyclewn

/-! ### src/lib/clewn/misc.py: quote / unquote -/

/-- The character class of `RE_ESCAPE`, i.e. `["\n\t\r\\]`. -/
def isSpecial (c : Char) : Bool :=
  c = '"' || c = '\n' || c = '\t' || c = '\r' || c = '\\'

/-- `escape_char`: replacement text for one character matched by `RE_ESCAPE`. -/
def escRepl (c : Char) : List Char :=
  if c = '"' then ['\\', '"']
  else if c = '\n' then ['\\', 'n']
  else if c = '\t' then ['\\', 't']
  else if c = '\r' then ['\\', 'r']
  else if c = '\\' then ['\\', '\\']
  else [c]

/-- `re_escape.sub(escape_char, ·)` on the character list of a string. -/
def escapeStr : List Char → List Char
  | [] => []
  | c :: cs => (if isSpecial c then escRepl c else [c]) ++ escapeStr cs

/-- The escape codes accepted by `RE_UNESCAPE`, i.e. `\\["ntr\\]`. -/
def isEscCode (c : Char) : Bool :=
  c = '"' || c = 'n' || c = 't' || c = 'r' || c = '\\'

/-- `unescape_char`: the character an escape code stands for. -/
def unescRepl (c : Char) : Char :=
  if c = 'n' then '\n' else if c = 't' then '\t' else if c = 'r' then '\r' else c

/-- `re_unescape.sub(unescape_char, ·)`: the left-to-right, non-overlapping
substitution a single `re.sub` pass performs. -/
def unescapeStr : List Char → List Char
  | [] => []
  | c :: cs =>
    if c = '\\' then
      match cs with
      | [] => ['\\']
      | d :: ds =>
        if isEscCode d then unescRepl d :: unescapeStr ds
        else '\\' :: unescapeStr (d :: ds)
    else c :: unescapeStr cs

/-- `misc.quote`: `'"%s"' % re_escape.sub(escape_char, msg)`. -/
def quote (msg : String) : String :=
  "\"" ++ String.mk (escapeStr msg.data) ++ "\""

/-- `misc.unquote`: `re_unescape.sub(unescape_char, msg)`. -/
def unquote (msg : String) : String :=
  String.mk (unescapeStr msg.data)

/-! ### src/clewn/buffer.py: the marker store

`Buffer` objects are kept in `buf_list` and addressed by their index (the
Python code aliases the objects; a `Buffer` is never removed from the list,
so its index is a stable identity).  `anno_dict` maps a marker id to the
index of its owning buffer.  The netbeans socket is modelled by a serial
counter and the chronological list of outward messages. -/

/-- `FRAME_ANNO_ID` of buffer.py. -/
def FRAME_ANNO_ID : String := "frame"

/-- One outward netbeans message, as produced by `nbsock.send_cmd(buf, ...)`.
The first field is always the netbeans buffer number of `buf`. -/
inductive Msg where
  | editFile (bufId : Nat) (path : String)
  | putBufferNumber (bufId : Nat) (path : String)
  | stopDocumentListen (bufId : Nat)
  | defineAnnoType (bufId : Nat) (typenum : Nat) (name glyph : String) (color : Nat)
  | addAnno (bufId : Nat) (sernum : Nat) (typenum : Nat) (lnum : Int)
  | removeAnno (bufId : Nat) (sernum : Nat)
  | setDot (bufId : Nat) (lnum : Int)
  deriving DecidableEq, Repr

/-- The argument string of a message, exactly as formatted by buffer.py
(`'%d %d %d/0 -1'`, `'%d/0'`, `misc.quote(name)`, ...). -/
def Msg.args : Msg → String
  | .editFile _ p => quote p
  | .putBufferNumber _ p => quote p
  | .stopDocumentListen _ => ""
  | .defineAnnoType _ t n g c =>
      toString t ++ " \"" ++ n ++ "\" \"\" \"" ++ g ++ "\" none " ++ toString c
  | .addAnno _ ser t l => toString ser ++ " " ++ toString t ++ " " ++ toString l ++ "/0 -1"
  | .removeAnno _ ser => toString ser
  | .setDot _ l => toString l ++ "/0"

/-- Python exceptions raised by the marker operations (ValueError, KeyError,
AssertionError; the message texts are elided). -/
inductive Err where
  | valueError
  | keyError
  | assertFail
  deriving DecidableEq, Repr

/-- One placed marker: the instance attributes shared by the two marker
classes of buffer.py (`isFrame` records which class the object is). -/
structure Anno where
  lnum : Int
  disabled : Bool
  sernum : Nat
  is_set : Bool
  isFrame : Bool
  deriving DecidableEq, Repr

/-- One `Buffer` of buffer.py: a dictionary of markers plus the instance
attributes; `annos` is the `{anno_id: marker}` dictionary (keys unique,
insertion ordered). -/
structure VimBuffer where
  name : String
  buf_id : Nat
  registered : Bool
  cur_lnum : Option Int
  cur_col : Option Int
  type_num : Nat
  bp_tnum : Nat
  frame_tnum : Nat
  annos : List (String × Anno)
  deriving DecidableEq, Repr

/-- Modelled from the spec: the netbeans socket (netbeans.py is not under
src/).  `sernum` is the serial-number allocator behind `last_sernum` (each
read returns a fresh, strictly increasing serial — "Serial number: the id
used to address a specific placed marker instance for later removal");
`msgs` is the chronological list of outward messages. -/
structure NB where
  sernum : Nat
  last_buf : Option Nat
  msgs : List Msg
  deriving DecidableEq, Repr

/-- The `BufferSet` state: the buffer list, the global marker dictionary
(marker id to buffer index), the socket, and the serial of the single
frame-marker object (`FrameAnnotation` is a `misc.Singleton`: its serial
is allocated once per session and reused on re-creation). -/
structure BufferSet where
  nb : NB
  buf_list : List VimBuffer
  anno_dict : List (String × Nat)
  frame_sernum : Option Nat
  deriving DecidableEq, Repr

/-- `os.path.isabs` on posix: the path begins with a slash. -/
def pathIsAbs (p : String) : Bool :=
  match p.data with
  | '/' :: _ => true
  | _ => false

/-- Lookup in the `anno_dict` association list. -/
def dlookup (id : String) : List (String × Nat) → Option Nat
  | [] => none
  | (k, v) :: rest => if k = id then some v else dlookup id rest

/-- `del anno_dict[id]`: drop the binding of `id`. -/
def derase (id : String) : List (String × Nat) → List (String × Nat)
  | [] => []
  | (k, v) :: rest => if k = id then rest else (k, v) :: derase id rest

/-- Lookup in a buffer's marker dictionary. -/
def alookup (id : String) : List (String × Anno) → Option Anno
  | [] => none
  | (k, v) :: rest => if k = id then some v else alookup id rest

/-- Mutate the marker stored under `id` in place. -/
def amodify (id : String) (f : Anno → Anno) : List (String × Anno) → List (String × Anno)
  | [] => []
  | (k, v) :: rest => if k = id then (k, f v) :: rest else (k, v) :: amodify id f rest

/-- `del buffer[id]`: drop the marker binding of `id`. -/
def aerase (id : String) : List (String × Anno) → List (String × Anno)
  | [] => []
  | (k, v) :: rest => if k = id then rest else (k, v) :: aerase id rest

/-- `id in buffer.keys()`. -/
def amem (id : String) (l : List (String × Anno)) : Bool := (alookup id l).isSome

/-- `id in anno_dict.keys()`. -/
def dmem (id : String) (d : List (String × Nat)) : Bool := (dlookup id d).isSome

/-- Append one outward message (`nbsock.send_cmd`). -/
def sendMsg (m : Msg) (s : BufferSet) : BufferSet :=
  { s with nb := { s.nb with msgs := s.nb.msgs ++ [m] } }

/-- Read `nbsock.last_sernum`: a fresh serial. -/
def freshSernum (s : BufferSet) : Nat × BufferSet :=
  (s.nb.sernum + 1, { s with nb := { s.nb with sernum := s.nb.sernum + 1 } })

/-- Mutate the buffer at index `i` of a buffer list. -/
def modList (i : Nat) (f : VimBuffer → VimBuffer) : List VimBuffer → List VimBuffer
  | [] => []
  | b :: bs =>
    match i with
    | 0 => f b :: bs
    | j + 1 => b :: modList j f bs

/-- Mutate the buffer at index `i` of the state. -/
def modifyBuf (i : Nat) (f : VimBuffer → VimBuffer) (s : BufferSet) : BufferSet :=
  { s with buf_list := modList i f s.buf_list }

/-- Index of the buffer registered under `path`, if any. -/
def findBufIdx (path : String) : List VimBuffer → Option Nat
  | [] => none
  | b :: bs => if b.name = path then some 0 else (findBufIdx path bs).map (· + 1)

/-- `BufferSet.__getitem__` after its validity check: return the buffer of
`path`, instantiating one when not found (`Buffer(pathname,
len(self.buf_list) + 1, ...)`: netbeans buffer numbers start at one). -/
def getBuf (path : String) (s : BufferSet) : Nat × BufferSet :=
  match findBufIdx path s.buf_list with
  | some i => (i, s)
  | none =>
    let b : VimBuffer :=
      { name := path, buf_id := s.buf_list.length + 1, registered := false,
        cur_lnum := none, cur_col := none, type_num := 0, bp_tnum := 0,
        frame_tnum := 0, annos := [] }
    (s.buf_list.length, { s with buf_list := s.buf_list ++ [b] })

/-- `Buffer.define_frameanno` on the buffer at index `i`. -/
def define_frameanno (i : Nat) (s : BufferSet) : Nat × BufferSet :=
  match s.buf_list.get? i with
  | none => (0, s)
  | some b =>
    if b.frame_tnum = 0 then
      let t := b.type_num + 1
      let s := modifyBuf i (fun b => { b with type_num := t, frame_tnum := t }) s
      let s := sendMsg (.defineAnnoType b.buf_id t "frame" "=>" 0xefb735) s
      (t, s)
    else (b.frame_tnum, s)

/-- `Buffer.define_bpanno`: the two breakpoint categories are defined in
sequence (`bp_tnum = type_num + 1; type_num += 2`). -/
def define_bpanno (i : Nat) (s : BufferSet) : Nat × BufferSet :=
  match s.buf_list.get? i with
  | none => (0, s)
  | some b =>
    if b.bp_tnum = 0 then
      let t := b.type_num + 1
      let s := modifyBuf i (fun b => { b with bp_tnum := t, type_num := b.type_num + 2 }) s
      let s := sendMsg (.defineAnnoType b.buf_id t "bpEnabled" "bp" 0x0c3def) s
      let s := sendMsg (.defineAnnoType b.buf_id (b.type_num + 2) "bpDisabled" "bp" 0x3fef4b) s
      (t, s)
    else (b.bp_tnum, s)

/-- The `remove_anno` method of the marker `id` in the buffer at `i`: the
removal message is sent only when the buffer is registered and the marker
is placed; `is_set` becomes false either way. -/
def remove_anno (i : Nat) (id : String) (s : BufferSet) : BufferSet :=
  match s.buf_list.get? i with
  | none => s
  | some b =>
    match alookup id b.annos with
    | none => s
    | some a =>
      let s := if b.registered && a.is_set then
          sendMsg (.removeAnno b.buf_id a.sernum) s
        else s
      modifyBuf i (fun b => { b with annos := amodify id (fun a => { a with is_set := false }) b.annos }) s

/-- The toggle statement of `Annotation.update` (`if self.disabled !=
disabled: self.remove_anno(); self.disabled = disabled`). -/
def bp_toggle (i : Nat) (id : String) (disabled : Bool) (s : BufferSet) : BufferSet :=
  match s.buf_list.get? i with
  | none => s
  | some b =>
    match alookup id b.annos with
    | none => s
    | some a =>
      if a.disabled ≠ disabled then
        modifyBuf i (fun b => { b with annos := amodify id (fun a => { a with disabled := disabled }) b.annos })
          (remove_anno i id s)
      else s

/-- The placement statement of `Annotation.update` (`if not self.is_set:
...` — define the breakpoint categories, addAnno with the category picked
by the disabled flag, move the cursor, setDot, mark placed). -/
def bp_place (i : Nat) (id : String) (s : BufferSet) : BufferSet :=
  match s.buf_list.get? i with
  | none => s
  | some b =>
    match alookup id b.annos with
    | none => s
    | some a =>
      if a.is_set then s
      else
        let ts := define_bpanno i s
        let typeNum := if a.disabled then ts.1 + 1 else ts.1
        let s := sendMsg (.addAnno b.buf_id a.sernum typeNum a.lnum) ts.2
        let s := { s with nb := { s.nb with last_buf := some i } }
        let s := modifyBuf i (fun b => { b with cur_lnum := some a.lnum, cur_col := some 0 }) s
        let s := sendMsg (.setDot b.buf_id a.lnum) s
        modifyBuf i (fun b => { b with annos := amodify id (fun a => { a with is_set := true }) b.annos }) s

/-- `FrameAnnotation.update`: the placement statement only (the `disabled`
argument is ignored). -/
def frame_update (i : Nat) (id : String) (s : BufferSet) : BufferSet :=
  match s.buf_list.get? i with
  | none => s
  | some b =>
    match alookup id b.annos with
    | none => s
    | some a =>
      if a.is_set then s
      else
        let ts := define_frameanno i s
        let s := sendMsg (.addAnno b.buf_id a.sernum ts.1 a.lnum) ts.2
        let s := { s with nb := { s.nb with last_buf := some i } }
        let s := modifyBuf i (fun b => { b with cur_lnum := some a.lnum, cur_col := some 0 }) s
        let s := sendMsg (.setDot b.buf_id a.lnum) s
        modifyBuf i (fun b => { b with annos := amodify id (fun a => { a with is_set := true }) b.annos }) s

/-- The `update` methods of the two marker classes, dispatched on which
class the stored marker is.  A plain marker runs the toggle statement and
then the placement statement; the frame marker only the placement.  A
missing `id` is the Python `KeyError` of `self[anno_id]`. -/
def anno_update (i : Nat) (id : String) (disabled : Bool) (s : BufferSet) :
    BufferSet × Option Err :=
  match s.buf_list.get? i with
  | none => (s, none)
  | some b =>
    match alookup id b.annos with
    | none => (s, some .keyError)
    | some a =>
      if a.isFrame then (frame_update i id s, none)
      else (bp_place i id (bp_toggle i id disabled s), none)

/-- `Buffer.update`: register the file with netbeans on first use
(editFile / putBufferNumber / stopDocumentListen), then update one marker
or, with no id, every marker of the buffer. -/
def buf_update (i : Nat) (annoId : Option String) (disabled : Bool) (s : BufferSet) :
    BufferSet × Option Err :=
  match s.buf_list.get? i with
  | none => (s, none)
  | some b =>
    let s :=
      if ¬ b.registered then
        let s := sendMsg (.editFile b.buf_id b.name) s
        let s := sendMsg (.putBufferNumber b.buf_id b.name) s
        let s := sendMsg (.stopDocumentListen b.buf_id) s
        modifyBuf i (fun b => { b with registered := true }) s
      else s
    match annoId with
    | some id => anno_update i id disabled s
    | none =>
      let ks := ((s.buf_list.get? i).map (fun b => b.annos.map Prod.fst)).getD []
      (ks.foldl (fun st id => (anno_update i id false st).1) s, none)

/-- `Buffer.add_anno`: assert the id is new, build the marker object
(`FrameAnnotation` for the frame id — a singleton whose serial is drawn
once per session — otherwise a plain marker with a fresh serial), then
`self.update(anno_id)`. -/
def buf_add_anno (i : Nat) (id : String) (lnum : Int) (s : BufferSet) :
    BufferSet × Option Err :=
  match s.buf_list.get? i with
  | none => (s, none)
  | some b =>
    if amem id b.annos then (s, some .assertFail)
    else
      let ss :=
        if id = FRAME_ANNO_ID then
          match s.frame_sernum with
          | some n => (n, s)
          | none =>
            let ns := freshSernum s
            (ns.1, { ns.2 with frame_sernum := some ns.1 })
        else freshSernum s
      let a : Anno :=
        { lnum := lnum, disabled := false, sernum := ss.1, is_set := false,
          isFrame := id = FRAME_ANNO_ID }
      let s := modifyBuf i (fun b => { b with annos := b.annos ++ [(id, a)] }) ss.2
      buf_update i (some id) false s

/-- `Buffer.delete_anno`: assert the id exists, remove the placed marker,
delete the dictionary entry. -/
def buf_delete_anno (i : Nat) (id : String) (s : BufferSet) : BufferSet × Option Err :=
  match s.buf_list.get? i with
  | none => (s, none)
  | some b =>
    if amem id b.annos then
      let s := remove_anno i id s
      (modifyBuf i (fun b => { b with annos := aerase id b.annos }) s, none)
    else (s, some .assertFail)

/-- `Buffer.removeall`: remove (un-place) every marker at line `lnum`, or
every marker when `lnum` is `None`. -/
def buf_removeall (i : Nat) (lnum : Option Int) (s : BufferSet) : BufferSet :=
  let ks := ((s.buf_list.get? i).map (fun b => b.annos.map Prod.fst)).getD []
  ks.foldl (fun st id =>
    match (st.buf_list.get? i).bind (fun b => alookup id b.annos) with
    | none => st
    | some a =>
      if lnum.isNone || lnum == some a.lnum then remove_anno i id st else st) s

/-- `BufferSet.add_anno`: validate the line, the id and the path (in that
order, each raising before any mutation), get or create the buffer, record
the id in the global dictionary, then `buf.add_anno`. -/
def bs_add_anno (annoId pathname : String) (lnum : Int) (s : BufferSet) :
    BufferSet × Option Err :=
  if lnum ≤ 0 then (s, some .valueError)
  else if dmem annoId s.anno_dict then (s, some .keyError)
  else if ¬ pathIsAbs pathname then (s, some .valueError)
  else
    let is := getBuf pathname s
    let s := { is.2 with anno_dict := is.2.anno_dict ++ [(annoId, is.1)] }
    buf_add_anno is.1 annoId lnum s

/-- `BufferSet.update_anno`: an unknown id raises KeyError, otherwise the
owning buffer's `update(anno_id, disabled)` runs. -/
def bs_update_anno (annoId : String) (disabled : Bool) (s : BufferSet) :
    BufferSet × Option Err :=
  match dlookup annoId s.anno_dict with
  | none => (s, some .keyError)
  | some i => buf_update i (some annoId) disabled s

/-- `BufferSet.delete_anno`: an unknown id raises KeyError; the buffer's
`delete_anno` runs first, then the global dictionary entry is dropped. -/
def bs_delete_anno (annoId : String) (s : BufferSet) : BufferSet × Option Err :=
  match dlookup annoId s.anno_dict with
  | none => (s, some .keyError)
  | some i =>
    match buf_delete_anno i annoId s with
    | (s, some e) => (s, some e)
    | (s, none) => ({ s with anno_dict := derase annoId s.anno_dict }, none)

/-- `BufferSet.show_frame`: validate the line, remove any existing frame
marker, and place a new one when a (truthy) pathname is given. -/
def bs_show_frame (pathname : Option String) (lnum : Int) (s : BufferSet) :
    BufferSet × Option Err :=
  if lnum ≤ 0 then (s, some .valueError)
  else
    match (if dmem FRAME_ANNO_ID s.anno_dict then bs_delete_anno FRAME_ANNO_ID s
           else (s, none)) with
    | (s, some e) => (s, some e)
    | (s, none) =>
      match pathname with
      | none => (s, none)
      | some p => if p = "" then (s, none) else bs_add_anno FRAME_ANNO_ID p lnum s

/-- `BufferSet.add_bp`: an existing id is only logged, not raised. -/
def bs_add_bp (bpId pathname : String) (lnum : Int) (s : BufferSet) :
    BufferSet × Option Err :=
  if lnum ≤ 0 then (s, some .valueError)
  else if ¬ dmem bpId s.anno_dict then bs_add_anno bpId pathname lnum s
  else (s, none)

/-- `BufferSet.update_bp`: an unknown id is only logged, not raised. -/
def bs_update_bp (bpId : String) (disabled : Bool) (s : BufferSet) :
    BufferSet × Option Err :=
  if dmem bpId s.anno_dict then bs_update_anno bpId disabled s
  else (s, none)

/-- One buffer's share of `BufferSet.delete_all`: un-place the matching
markers, then delete them from the global dictionary and from the buffer;
returns the deleted ids. -/
def delete_all_buf (i : Nat) (lnum : Option Int) (s : BufferSet) :
    BufferSet × List String :=
  let s := buf_removeall i lnum s
  let annoList :=
    ((s.buf_list.get? i).map (fun b =>
      (b.annos.filter (fun p => lnum.isNone || lnum == some p.2.lnum)).map Prod.fst)).getD []
  let s := { s with anno_dict := annoList.foldl (fun d id => derase id d) s.anno_dict }
  let s := modifyBuf i (fun b => { b with annos := annoList.foldl (fun l id => aerase id l) b.annos }) s
  (s, annoList)

/-- `BufferSet.delete_all`: with no pathname the line filter is cleared and
every buffer is processed; a relative pathname raises; otherwise only the
buffers with that name are processed.  Returns the deleted ids. -/
def bs_delete_all (pathname : Option String) (lnum : Option Int) (s : BufferSet) :
    (BufferSet × List String) × Option Err :=
  match pathname with
  | none =>
    ((List.range s.buf_list.length).foldl
      (fun (acc : BufferSet × List String) i =>
        let r := delete_all_buf i none acc.1
        (r.1, acc.2 ++ r.2)) (s, []), none)
  | some p =>
    if ¬ pathIsAbs p then ((s, []), some .valueError)
    else
      ((List.range s.buf_list.length).foldl
        (fun (acc : BufferSet × List String) i =>
          match acc.1.buf_list.get? i with
          | some b =>
            if b.name = p then
              let r := delete_all_buf i lnum acc.1
              (r.1, acc.2 ++ r.2)
            else acc
          | none => acc) (s, []), none)

/-- The public marker-store API of buffer.py, the operation language over
which reachability is stated. -/
inductive Op where
  | addA (annoId pathname : String) (lnum : Int)
  | updateA (annoId : String) (disabled : Bool)
  | deleteA (annoId : String)
  | showFrame (pathname : Option String) (lnum : Int)
  | deleteAll (pathname : Option String) (lnum : Option Int)
  | addBp (bpId pathname : String) (lnum : Int)
  | updateBp (bpId : String) (disabled : Bool)
  | refFile (pathname : String)
  | delItem (pathname : String)
  deriving DecidableEq, Repr

/-- Apply one operation.  `refFile` is a bare `BufferSet.__getitem__`
reference (the clewn-buffer name escape of `is_clewnbuf`, which consults
the filesystem, is not modelled; every claim uses absolute paths);
`delItem` is `__delitem__`, whose body is `pass`: a key is never
removed. -/
def applyOp (s : BufferSet) (op : Op) : BufferSet × Option Err :=
  match op with
  | .addA id p l => bs_add_anno id p l s
  | .updateA id d => bs_update_anno id d s
  | .deleteA id => bs_delete_anno id s
  | .showFrame p l => bs_show_frame p l s
  | .deleteAll p l =>
    let r := bs_delete_all p l s
    (r.1.1, r.2)
  | .addBp id p l => bs_add_bp id p l s
  | .updateBp id d => bs_update_bp id d s
  | .refFile p =>
    if ¬ pathIsAbs p then (s, some .valueError)
    else ((getBuf p s).2, none)
  | .delItem _ => (s, none)

/-- `BufferSet.__init__`. -/
def initBS : BufferSet :=
  { nb := { sernum := 0, last_buf := none, msgs := [] },
    buf_list := [], anno_dict := [], frame_sernum := none }

/-- Run a sequence of operations from the fresh session state (a raised
exception propagates to the caller with the state as mutated so far). -/
def runOps (ops : List Op) : BufferSet :=
  ops.foldl (fun s op => (applyOp s op).1) initBS

/-! Observables used by the theorems. -/

/-- The (pathname, file-id) skeleton of the registry. -/
def fileKeys (s : BufferSet) : List (String × Nat) :=
  s.buf_list.map (fun b => (b.name, b.buf_id))

/-- `idsFromK n kl` says the file-ids along the skeleton are `n, n+1, ...`. -/
def idsFromK : Nat → List (String × Nat) → Bool
  | _, [] => true
  | n, kv :: rest => (kv.2 == n) && idsFromK (n + 1) rest

/-- The file-ids are exactly `1..N` in registration order. -/
def idsOk (s : BufferSet) : Bool := idsFromK 1 (fileKeys s)

/-- The registered pathnames in first-reference order. -/
def bufNames (s : BufferSet) : List String := s.buf_list.map (fun b => b.name)

/-- Number of frame-marker entries in one buffer's dictionary. -/
def aFrameCnt : List (String × Anno) → Nat
  | [] => 0
  | (k, _) :: rest => (if k = FRAME_ANNO_ID then 1 else 0) + aFrameCnt rest

/-- Number of frame-marker entries across all buffers. -/
def frameCntL : List VimBuffer → Nat
  | [] => 0
  | b :: bs => aFrameCnt b.annos + frameCntL bs

/-- Number of frame markers live in the state. -/
def frameCount (s : BufferSet) : Nat := frameCntL s.buf_list

/-- Number of frame bindings in the global dictionary. -/
def dFrameCnt : List (String × Nat) → Nat
  | [] => 0
  | (k, _) :: rest => (if k = FRAME_ANNO_ID then 1 else 0) + dFrameCnt rest

/-- The per-buffer frame-marker counts, in buffer order. -/
def bufCnts (s : BufferSet) : List Nat :=
  s.buf_list.map (fun b => aFrameCnt b.annos)

/-- The frame-marker invariant carried across operations: at most one
frame marker is live, a live frame marker is recorded in the global
dictionary, the dictionary holds at most one frame binding, and every
dictionary binding points at a registered buffer. -/
def FI (s : BufferSet) : Prop :=
  frameCount s ≤ 1
  ∧ (1 ≤ frameCount s → 1 ≤ dFrameCnt s.anno_dict)
  ∧ dFrameCnt s.anno_dict ≤ 1
  ∧ ∀ kv ∈ s.anno_dict, kv.2 < s.buf_list.length

def isRemoveMsg : Msg → Bool
  | .removeAnno _ _ => true
  | _ => false

def isAddMsg : Msg → Bool
  | .addAnno _ _ _ _ => true
  | _ => false

/-- The `anno_list` computed by `delete_all` for one buffer: the ids of the
markers matching the line filter. -/
def eraseKeys (lnum : Option Int) (ob : Option VimBuffer) : List String :=
  ((ob.map (fun b =>
    (b.annos.filter (fun p => lnum.isNone || lnum == some p.2.lnum)).map Prod.fst)).getD [])

/-- The marker object built by `Buffer.add_anno` (fresh, enabled, unplaced). -/
def mkAnno (lnum : Int) (n : Nat) (fr : Bool) : Anno :=
  { lnum := lnum, disabled := false, sernum := n, is_set := false, isFrame := fr }

/-- `self.is_set = False` on the marker `id` of a buffer (`remove_anno`). -/
def togUnset (id : String) (bb : VimBuffer) : VimBuffer :=
  { bb with annos := amodify id (fun aa => { aa with is_set := false }) bb.annos }

/-- `self.disabled = disabled` on the marker `id` of a buffer. -/
def togDis (id : String) (d : Bool) (bb : VimBuffer) : VimBuffer :=
  { bb with annos := amodify id (fun aa => { aa with disabled := d }) bb.annos }

/-- `self.is_set = True` on the marker `id` of a buffer (placement). -/
def togSet (id : String) (bb : VimBuffer) : VimBuffer :=
  { bb with annos := amodify id (fun aa => { aa with is_set := true }) bb.annos }

/-- A placed enabled breakpoint marker at line 42 (the marker of Scenario A
after placement). -/
def wAnno : Anno :=
  { lnum := 42, disabled := false, sernum := 1, is_set := true, isFrame := false }

/-- The registered buffer of /src/a.c holding `wAnno` under id "bp1". -/
def wBuf : VimBuffer :=
  { name := "/src/a.c", buf_id := 1, registered := true, cur_lnum := some 42,
    cur_col := some 0, type_num := 2, bp_tnum := 1, frame_tnum := 0,
    annos := [("bp1", wAnno)] }

/-- The session state right after Scenario A (outward messages cleared). -/
def wState : BufferSet :=
  { nb := { sernum := 1, last_buf := some 0, msgs := [] },
    buf_list := [wBuf], anno_dict := [("bp1", 0)], frame_sernum := none }

/-! ### src/clewn/gdb.py: the protocol engine

The regexp `RE_MIRECORD` is `^.*(?P<token>\d\d\d)[^*+=](?P<result>.*)$`
(verbose mode, the trailing `# RE: ...` is a comment): a token is exactly
three consecutive digits, and the greedy leading `.*` selects the latest
position at which the token group can match. -/

def isDigitCh (c : Char) : Bool := '0' ≤ c && c ≤ '9'

/-- Match `(\d\d\d)[^*+=](.*)$` at the head of the character list. -/
def miAt : List Char → Option (String × String)
  | d1 :: d2 :: d3 :: c :: rest =>
    if isDigitCh d1 && isDigitCh d2 && isDigitCh d3
        && !(c = '*') && !(c = '+') && !(c = '=') then
      some (String.mk [d1, d2, d3], String.mk rest)
    else none
  | _ => none

/-- `re_mirecord.match(line)`: the backtracking of the greedy `.*` returns
the match at the latest possible token position. -/
def miSearch : List Char → Option (String × String)
  | [] => none
  | c :: cs =>
    match miSearch cs with
    | some r => some r
    | none => miAt (c :: cs)

/-- Which pending-command object a result belongs to: the single
`CliCommand` instance, or one of the out-of-band `MiCommand`s. -/
inductive GCmd where
  | cli
  | mi (n : Nat)
  deriving DecidableEq, Repr

/-- One formatted command written to the subordinate process. -/
inductive Wire where
  | cli (token : String) (text : String)
  | mi (token : String) (n : Nat)
  deriving DecidableEq, Repr

/-- The `Gdb` instance state (the fields `handle_line`,
`default_cmd_processing` and `cmd_sigint` touch), together with the
channel state of `ProcessChannel` (`ttyname`, the interrupt characters
sent) and the observation lists `handled` / `strHandled` recording the
`handle_result` / `handle_strrecord` invocations. -/
structure GdbState where
  results : List (String × GCmd)
  handled : List (GCmd × String)
  strHandled : List (GCmd × String)
  lastcmd : Option GCmd
  stream_record : List String
  gotprmpt : Bool
  oob : Option (List Nat)
  miList : List Nat
  firstcmdline : Option String
  curcmdline : String
  written : List Wire
  console : List String
  nextToken : Nat
  ttyname : Option String
  intr : List Char
  illegal_cmds_prefix : List String
  illegal_setargs_prefix : List String
  deriving DecidableEq, Repr

/-- Modelled from the spec: `gdbmi.Result` (gdbmi.py is not under src/),
the token-to-pending-command table; `remove(token)` returns the command
and deletes its entry, or `None` when the token is unknown. -/
def resultsRemove (token : String) :
    List (String × GCmd) → Option GCmd × List (String × GCmd)
  | [] => (none, [])
  | (t, c) :: rest =>
    if t = token then (some c, rest)
    else
      let r := resultsRemove token rest
      (r.1, (t, c) :: r.2)

/-- Three-digit token text. -/
def tok3 (n : Nat) : String :=
  if n < 10 then "00" ++ toString n
  else if n < 100 then "0" ++ toString n
  else toString n

/-- Modelled from the spec: `Command.sendcmd` of gdbmi.py (not under src/)
— "send(command_text) -> token, enqueues a correlation entry and writes
the formatted command to SessionChannel". -/
def sendCmdG (c : GCmd) (s : GdbState) : GdbState :=
  let t := tok3 s.nextToken
  let w : Wire :=
    match c with
    | .cli => .cli t s.curcmdline
    | .mi n => .mi t n
  { s with nextToken := s.nextToken + 1,
           results := s.results ++ [(t, c)],
           written := s.written ++ [w] }

/-- As `sendCmdG`, for the cli command with an explicit command line
(`self.cli.sendcmd(line)`). -/
def sendCli (line : String) (s : GdbState) : GdbState :=
  let t := tok3 s.nextToken
  { s with nextToken := s.nextToken + 1,
           results := s.results ++ [(t, GCmd.cli)],
           written := s.written ++ [Wire.cli t line] }

/-- Python `str.strip('"')`: drop the quotes at both ends. -/
def stripQ (l : List Char) : List Char :=
  ((l.dropWhile (fun c => c = '"')).reverse.dropWhile (fun c => c = '"')).reverse

/-- The gdb idle prompt literal. -/
def promptLine : String := "(gdb) "

/-- The classification `handle_line` performs on one inbound line, in the
source's priority order: empty, stream record (`~ @ &`), gdb/mi record,
prompt, bad format.  (The escape substitution applied to stream-record
text is elided; no claim depends on the stream contents.) -/
inductive LineClass where
  | empty
  | stream (content : String) (keep : Bool)
  | mirecord (token result : String)
  | prompt
  | bad
  deriving DecidableEq, Repr

def classify (line : String) : LineClass :=
  match line.data with
  | [] => .empty
  | c :: rest =>
    if c = '~' || c = '@' || c = '&' then
      .stream (String.mk (stripQ rest)) (decide (rest ≠ []))
    else
      match miSearch line.data with
      | some tr => .mirecord tr.1 tr.2
      | none => if line = promptLine then .prompt else .bad

/-- `Gdb.handle_line`.  A duplicate or unknown token is silently ignored;
the prompt drives the flush / out-of-band cycle: flush the stream records
to the last-processed command, restart the OOB batch when the last command
was the cli one (or none yet), then send the next OOB command or — on
exhaustion — the deferred first command line. -/
def handle_line (line : String) (s : GdbState) : GdbState :=
  match classify line with
  | .empty => s
  | .stream content keep =>
    if keep then { s with stream_record := s.stream_record ++ [content] } else s
  | .mirecord token result =>
    let r := resultsRemove token s.results
    match r.1 with
    | none => s
    | some c =>
      { s with results := r.2, lastcmd := some c,
               handled := s.handled ++ [(c, result)] }
  | .prompt =>
    let cmd := s.lastcmd.getD .cli
    let s := { s with
      strHandled := s.strHandled ++ [(cmd, String.join s.stream_record)],
      stream_record := [] }
    let s :=
      if s.lastcmd = some GCmd.cli ∨ s.lastcmd = none then
        { s with oob := some s.miList, gotprmpt := true }
      else s
    match s.oob with
    | none => s
    | some [] =>
      let s := { s with oob := none }
      match s.firstcmdline with
      | some f =>
        if f = "" then { s with firstcmdline := some "" }
        else
          let s := { s with console := s.console ++ [f ++ "\n"] }
          let s := sendCli f s
          { s with firstcmdline := some "" }
      | none => { s with firstcmdline := some "" }
    | some (c :: rest) =>
      let s := sendCmdG (.mi c) s
      { s with oob := some rest }
  | .bad => s

/-- `Gdb.pre_cmd`: record the current command line and echo it when not
busy (not the first command, not sigint, prompt received, no OOB batch in
progress). -/
def pre_cmd (cmd args : String) (s : GdbState) : GdbState :=
  let cur := if args = "" then cmd else cmd ++ " " ++ args
  let s := { s with curcmdline := cur }
  if s.firstcmdline ≠ none ∧ cmd ≠ "sigint" ∧ s.gotprmpt = true ∧ s.oob = none then
    { s with console := s.console ++ [cur ++ "\n"] }
  else s

/-- First whitespace-separated word of `args` (`args.split()[0]`). -/
def firstArgOf (args : String) : String :=
  (((args.splitOn " ").filter (fun w => w ≠ "")).headD "")

/-- `Gdb.default_cmd_processing`: reject illegal commands and illegal `set`
arguments; store the very first command line for deferred sending,
otherwise send it through the cli command at once. -/
def default_cmd_processing (cmd args : String) (s : GdbState) : GdbState :=
  if (s.illegal_cmds_prefix.any (fun e => cmd.startsWith e)) = true then
    { s with console := s.console ++ ["Illegal command in pyclewn.\n"] }
  else if cmd = "set" ∧ args ≠ "" ∧
      (s.illegal_setargs_prefix.any (fun e => (firstArgOf args).startsWith e)) = true then
    { s with console := s.console ++ ["Illegal argument in pyclewn.\n"] }
  else if s.firstcmdline = none then
    { s with firstcmdline := some s.curcmdline }
  else sendCli s.curcmdline s

/-- One user-issued command dispatched by the application layer:
`pre_cmd` then `default_cmd_processing`. -/
def user_cmd (cmd args : String) (s : GdbState) : GdbState :=
  default_cmd_processing cmd args (pre_cmd cmd args s)

/-! `src/clewn/misc_posix.py`: interrupt and spawn fallback. -/

/-- `ProcessChannel.INTERRUPT_CHAR`, `chr(3)`. -/
def INTERRUPT_CHAR : Char := Char.ofNat 3

/-- `ProcessChannel.sendintr`: the interrupt character is written only
when the subordinate has a controlling terminal. -/
def sendintr (s : GdbState) : GdbState :=
  if s.ttyname ≠ none then { s with intr := s.intr ++ [INTERRUPT_CHAR] } else s

/-- The explanatory message printed by `Gdb.cmd_sigint` in pipe mode. -/
def pipeWarning : String :=
  "\nSorry, pyclewn is currently using pipes to talk to gdb, and gdb does not handle interrupts over pipes.\nAs a workaround, get the pid of the program with the gdb command \"info proc\".\nAnd send a SIGINT signal with the shell, on vim command line: \":!kill -s SIGINT pid\"\n"

/-- `Gdb.cmd_sigint`: always attempt the interrupt; without a controlling
terminal, print the degraded-capability message instead (the trailing
`self.prompt()` is display only). -/
def cmd_sigint (s : GdbState) : GdbState :=
  let s := sendintr s
  if s.ttyname = none then { s with console := s.console ++ [pipeWarning] } else s

/-- `ProcessChannel.popen`: the pipe fallback, which clears `ttyname`. -/
def popenM (s : GdbState) : GdbState := { s with ttyname := none }

/-- `ProcessChannel.ptyopen`: attempt a pseudo-tty spawn; the OS failure
of `forkexec` is a boolean input; on failure fall back to pipes. -/
def ptyopen (ptyFails : Bool) (tty : String) (s : GdbState) : GdbState :=
  if ptyFails then popenM s else { s with ttyname := some tty }

/-- `Gdb.__init__` (protocol fields; the illegal-prefix lists come from
the external command table and start empty in the model). -/
def initGdb (miList : List Nat) (tty : Option String) : GdbState :=
  { results := [], handled := [], strHandled := [], lastcmd := none,
    stream_record := [], gotprmpt := false, oob := none, miList := miList,
    firstcmdline := none, curcmdline := "", written := [], console := [],
    nextToken := 100, ttyname := tty, intr := [],
    illegal_cmds_prefix := [], illegal_setargs_prefix := [] }

/-- The cli wires among the written commands. -/
def cliWrites (l : List Wire) : List Wire :=
  l.filter (fun w => match w with | .cli _ _ => true | .mi _ _ => false)

/-! Concrete protocol trace used by the C3 theorems: first prompt starts
the OOB batch [1, 2, 3]; two user commands arrive while the batch is in
progress; then the remaining result/prompt cycles run to exhaustion. -/

/-- Fresh session, first idle prompt: the OOB batch starts and its first
command (token "100") is written. -/
def traceG1 : GdbState := handle_line "(gdb) " (initGdb [1, 2, 3] (some "/dev/pts/0"))

/-- First user command, issued mid-batch: stored in `firstcmdline`. -/
def traceG2 : GdbState := user_cmd "break" "main" traceG1

/-- Second user command, issued mid-batch. -/
def traceG3 : GdbState := user_cmd "info" "locals" traceG2

/-- The batch runs on: results and prompts for the remaining OOB commands,
up to (and including) the result of the last one — the state just before
the prompt that exhausts the batch. -/
def traceG7pre : GdbState :=
  handle_line "103^done"
    (handle_line "(gdb) " (handle_line "102^done"
      (handle_line "(gdb) " (handle_line "100^done" traceG3))))

/-! ## Theorems -/

/-! ### Helper lemmas for misc.py -/

theorem unescapeStr_cons_ne (c : Char) (cs : List Char) (h : ¬ c = '\\') :
    unescapeStr (c :: cs) = c :: unescapeStr cs := by
  rw [unescapeStr.eq_def]
  simp [h]

theorem unescape_escape (cs : List Char) : unescapeStr (escapeStr cs) = cs := by
  induction cs with
  | nil => rfl
  | cons c cs ih =>
    by_cases h : isSpecial c = true
    · have h5 : c = '"' ∨ c = '\n' ∨ c = '\t' ∨ c = '\r' ∨ c = '\\' := by
        simpa [isSpecial, or_assoc] using h
      rcases h5 with h1 | h1 | h1 | h1 | h1 <;>
        simp [h1, escapeStr, escRepl, unescapeStr, isSpecial, isEscCode,
          unescRepl, ih]
    · have hbs : ¬ c = '\\' := by
        intro hc; exact h (by simp [isSpecial, hc])
      simp [escapeStr, h, ih, unescapeStr_cons_ne, hbs]

/-- C10: for every string `s`, `quote s` is `s` wrapped in double quotes
with the special characters (double quote, newline, tab, carriage return,
backslash — the class of `RE_ESCAPE`) replaced by their backslash escapes,
and `unquote` applied to that escaped body returns `s` unchanged: `unquote`
is a left inverse of the escaping done by `quote`. -/
theorem quote_escapes_and_unquote_inverts (s : String) :
    (quote s).data = '"' :: (escapeStr s.data ++ ['"'])
    ∧ unquote (String.mk (escapeStr s.data)) = s := by
  constructor
  · simp [quote, String.data_append]
  · apply String.ext
    simp [unquote, unescape_escape]

/-! ### C8: Scenario A, the first marker in a fresh session -/

/-- C8: adding the first marker (id "bp1", line 42) of file /src/a.c to a
fresh session emits exactly, in order: editFile, putBufferNumber,
stopDocumentListen, defineAnnoType for the enabled-breakpoint category,
defineAnnoType for the disabled-breakpoint category, addAnno with the
enabled-breakpoint type number and address "42/0" "-1", and setDot at
"42/0"; the rendered argument strings are exactly those of buffer.py. -/
theorem scenario_a_first_marker_messages :
    (runOps [Op.addA "bp1" "/src/a.c" 42]).nb.msgs =
      [Msg.editFile 1 "/src/a.c",
       Msg.putBufferNumber 1 "/src/a.c",
       Msg.stopDocumentListen 1,
       Msg.defineAnnoType 1 1 "bpEnabled" "bp" 0x0c3def,
       Msg.defineAnnoType 1 2 "bpDisabled" "bp" 0x3fef4b,
       Msg.addAnno 1 1 1 42,
       Msg.setDot 1 42]
    ∧ ((runOps [Op.addA "bp1" "/src/a.c" 42]).nb.msgs.map Msg.args) =
      ["\"/src/a.c\"", "\"/src/a.c\"", "",
       "1 \"bpEnabled\" \"\" \"bp\" none 802287",
       "2 \"bpDisabled\" \"\" \"bp\" none 4190027",
       "1 1 42/0 -1", "42/0"] := by
  constructor
  · decide
  · decide

/-! ### C1: toggling enabled/disabled reuses the serial number -/

/-- C1 counterexample: in the concrete Scenario A / Scenario B run, the
toggle emits removeAnno then addAnno, but the addAnno carries the very
same serial number (1) as the removeAnno — whereas the claim requires the
new serial number to differ from the old one.  The second conjunct
states that no distinct serial pair can match this emission. -/
theorem toggle_new_serial_cex :
    ((bs_update_anno "bp1" true (runOps [Op.addA "bp1" "/src/a.c" 42])).1.nb.msgs.drop 7
      = [Msg.removeAnno 1 1, Msg.addAnno 1 1 2 42, Msg.setDot 1 42])
    ∧ (∀ oldSer newSer tn,
        (bs_update_anno "bp1" true (runOps [Op.addA "bp1" "/src/a.c" 42])).1.nb.msgs.drop 7
          = [Msg.removeAnno 1 oldSer, Msg.addAnno 1 newSer tn 42, Msg.setDot 1 42]
        → newSer = oldSer) := by
  constructor
  · decide
  · intro oldSer newSer tn h
    have h' : ([Msg.removeAnno 1 1, Msg.addAnno 1 1 2 42, Msg.setDot 1 42] : List Msg)
        = [Msg.removeAnno 1 oldSer, Msg.addAnno 1 newSer tn 42, Msg.setDot 1 42] := by
      rw [← h]; decide
    simp at h'
    omega

/-! ### C2: token dispatch -/

/-- C2 counterexample: with the pending table holding a command under the
token text "12", processing the line `12^done,value="5"` does NOT dispatch
it — `RE_MIRECORD` only recognizes three-digit tokens, so the line is a
format error and is dropped: the state is unchanged, the token is still
pending and no handler ran. -/
theorem short_token_not_dispatched_cex :
    handle_line "12^done,value=\"5\""
        { initGdb [] none with results := [("12", GCmd.mi 5)] }
      = { initGdb [] none with results := [("12", GCmd.mi 5)] }
    ∧ (handle_line "12^done,value=\"5\""
        { initGdb [] none with results := [("12", GCmd.mi 5)] }).handled = [] := by
  constructor
  · decide
  · decide

/-- C2 amended: with a three-digit token — the only shape `RE_MIRECORD`
accepts — the dispatch-once behaviour holds: when the pending table holds
exactly the command registered under token "012", processing
`012^done,value="5"` removes the token and invokes that command's result
handler with the payload, and processing the identical line a second time
invokes no handler and changes nothing. -/
theorem token_dispatched_once (s : GdbState) (c : GCmd)
    (hres : s.results = [("012", c)]) :
    (handle_line "012^done,value=\"5\"" s).results = []
    ∧ (handle_line "012^done,value=\"5\"" s).handled
        = s.handled ++ [(c, "done,value=\"5\"")]
    ∧ handle_line "012^done,value=\"5\"" (handle_line "012^done,value=\"5\"" s)
        = handle_line "012^done,value=\"5\"" s := by
  have hc : classify "012^done,value=\"5\""
      = LineClass.mirecord "012" "done,value=\"5\"" := by decide
  have hrem : resultsRemove "012" s.results = (some c, []) := by
    rw [hres]; simp [resultsRemove]
  have h1 : handle_line "012^done,value=\"5\"" s
      = { s with results := [], lastcmd := some c,
                 handled := s.handled ++ [(c, "done,value=\"5\"")] } := by
    simp [handle_line, hc, hrem]
  refine ⟨by rw [h1], by rw [h1], ?_⟩
  rw [h1]
  simp [handle_line, hc, resultsRemove]

/-- Witness for `token_dispatched_once` at a concrete state. -/
theorem token_dispatched_once_w :
    ({ initGdb [] none with results := [("012", GCmd.mi 5)] } : GdbState).results
      = [("012", GCmd.mi 5)]
    ∧ ((handle_line "012^done,value=\"5\""
          { initGdb [] none with results := [("012", GCmd.mi 5)] }).results = []
       ∧ (handle_line "012^done,value=\"5\""
          { initGdb [] none with results := [("012", GCmd.mi 5)] }).handled
            = ({ initGdb [] none with
                  results := [("012", GCmd.mi 5)] } : GdbState).handled
              ++ [(GCmd.mi 5, "done,value=\"5\"")]
       ∧ handle_line "012^done,value=\"5\"" (handle_line "012^done,value=\"5\""
            { initGdb [] none with results := [("012", GCmd.mi 5)] })
          = handle_line "012^done,value=\"5\""
            { initGdb [] none with results := [("012", GCmd.mi 5)] }) :=
  ⟨by decide,
   token_dispatched_once { initGdb [] none with results := [("012", GCmd.mi 5)] }
     (GCmd.mi 5) (by decide)⟩

/-! ### C7: non-positive line numbers -/

/-- C7: for every line value `l ≤ 0` (the model of "not a strictly
positive integer"), the marker operations taking a line — `add_anno` and
`show_frame` — fail synchronously with ValueError before any outward
message is emitted and before any state change: the returned state is the
input state and the error is set, never a clamped value. -/
theorem nonpositive_line_rejected (s : BufferSet) (id p : String)
    (pn : Option String) (l : Int) (h : l ≤ 0) :
    bs_add_anno id p l s = (s, some Err.valueError)
    ∧ bs_show_frame pn l s = (s, some Err.valueError) := by
  constructor
  · simp [bs_add_anno, h]
  · simp [bs_show_frame, h]

/-- Witness for `nonpositive_line_rejected` at line 0. -/
theorem nonpositive_line_rejected_w :
    ((0 : Int) ≤ 0)
    ∧ (bs_add_anno "bp1" "/src/a.c" 0 initBS = (initBS, some Err.valueError)
       ∧ bs_show_frame (some "/src/a.c") 0 initBS = (initBS, some Err.valueError)) :=
  ⟨by decide,
   nonpositive_line_rejected initBS "bp1" "/src/a.c" (some "/src/a.c") 0 (by decide)⟩

/-! ### C6: duplicate and unknown marker ids -/

/-- C6: `add_anno` called with an id that already exists raises an error
(ValueError for a bad line, otherwise KeyError) and returns the marker
store unchanged; `update_anno` and `delete_anno` called with an unknown id
raise KeyError and return the marker store unchanged — no dictionary entry
added or removed, no message emitted. -/
theorem marker_id_errors_no_mutation (s : BufferSet) (dupId newId p : String)
    (l : Int) (d : Bool)
    (hdup : dmem dupId s.anno_dict = true)
    (hnew : dmem newId s.anno_dict = false) :
    ((bs_add_anno dupId p l s).1 = s ∧ (bs_add_anno dupId p l s).2.isSome = true)
    ∧ bs_update_anno newId d s = (s, some Err.keyError)
    ∧ bs_delete_anno newId s = (s, some Err.keyError) := by
  have hnone : dlookup newId s.anno_dict = none := by
    revert hnew
    unfold dmem
    cases dlookup newId s.anno_dict <;> simp
  refine ⟨?_, ?_, ?_⟩
  · by_cases hl : l ≤ 0
    · simp [bs_add_anno, hl]
    · simp [bs_add_anno, hl, hdup]
  · simp [bs_update_anno, hnone]
  · simp [bs_delete_anno, hnone]

/-- Witness for `marker_id_errors_no_mutation` on the Scenario A state. -/
theorem marker_id_errors_no_mutation_w :
    dmem "bp1" (runOps [Op.addA "bp1" "/src/a.c" 42]).anno_dict = true
    ∧ dmem "foo" (runOps [Op.addA "bp1" "/src/a.c" 42]).anno_dict = false
    ∧ (((bs_add_anno "bp1" "/src/b.c" 7 (runOps [Op.addA "bp1" "/src/a.c" 42])).1
          = runOps [Op.addA "bp1" "/src/a.c" 42]
        ∧ (bs_add_anno "bp1" "/src/b.c" 7
            (runOps [Op.addA "bp1" "/src/a.c" 42])).2.isSome = true)
       ∧ bs_update_anno "foo" true (runOps [Op.addA "bp1" "/src/a.c" 42])
          = (runOps [Op.addA "bp1" "/src/a.c" 42], some Err.keyError)
       ∧ bs_delete_anno "foo" (runOps [Op.addA "bp1" "/src/a.c" 42])
          = (runOps [Op.addA "bp1" "/src/a.c" 42], some Err.keyError)) :=
  ⟨by decide, by decide,
   marker_id_errors_no_mutation (runOps [Op.addA "bp1" "/src/a.c" 42])
     "bp1" "foo" "/src/b.c" 7 true (by decide) (by decide)⟩

/-! ### C9: interrupt in pipe mode -/

/-- C9: when the subordinate was spawned in pipe mode (`ttyname` is None —
the `ptyopen` fallback), an interrupt request prints the degraded-
capability explanatory message, writes no interrupt control character to
the subordinate, and the session state remains well defined (no crash). -/
theorem pipe_mode_interrupt_degraded (s : GdbState) (tty : String)
    (h : s.ttyname = none) :
    (cmd_sigint s).intr = s.intr
    ∧ (cmd_sigint s).console = s.console ++ [pipeWarning]
    ∧ (ptyopen true tty s).ttyname = none := by
  refine ⟨?_, ?_, ?_⟩ <;> simp [cmd_sigint, sendintr, h, ptyopen, popenM]

/-- Witness for `pipe_mode_interrupt_degraded`: the state right after the
pipe fallback. -/
theorem pipe_mode_interrupt_degraded_w :
    (ptyopen true "/dev/pts/0" (initGdb [1, 2] (some "/dev/pts/0"))).ttyname = none
    ∧ ((cmd_sigint (ptyopen true "/dev/pts/0" (initGdb [1, 2] (some "/dev/pts/0")))).intr
        = (ptyopen true "/dev/pts/0" (initGdb [1, 2] (some "/dev/pts/0"))).intr
       ∧ (cmd_sigint (ptyopen true "/dev/pts/0" (initGdb [1, 2] (some "/dev/pts/0")))).console
        = (ptyopen true "/dev/pts/0" (initGdb [1, 2] (some "/dev/pts/0"))).console
          ++ [pipeWarning]
       ∧ (ptyopen true "/dev/pts/9"
            (ptyopen true "/dev/pts/0" (initGdb [1, 2] (some "/dev/pts/0")))).ttyname
          = none) :=
  ⟨by decide,
   pipe_mode_interrupt_degraded
     (ptyopen true "/dev/pts/0" (initGdb [1, 2] (some "/dev/pts/0")))
     "/dev/pts/9" (by decide)⟩

/-! ### C3: gating of interactive commands behind the OOB batch -/

/-- C3 counterexample: while the OOB batch [1, 2, 3] is still in progress
(only its first command has been written, two have not even been sent),
the second interactive command of the session ("info locals") is written
to the subordinate immediately — it is not queued until the batch
completes.  Only the very first command ("break main") was deferred. -/
theorem interactive_written_mid_batch_cex :
    traceG3.written = [Wire.mi "100" 1, Wire.cli "101" "info locals"]
    ∧ traceG3.oob = some [2, 3]
    ∧ traceG3.firstcmdline = some "break main" := by
  refine ⟨by decide, by decide, by decide⟩

/-- C3 amended: only the FIRST interactive command line of the session is
gated behind the OOB batch.  (1) A command issued while `firstcmdline` is
unset is stored and nothing is written; (2) while an OOB batch still has
pending commands, processing any inbound line writes at most one OOB
command and never an interactive one; (3) the prompt that finds the batch
exhausted releases the stored first command line.  (Later interactive
commands are written immediately, as the counterexample shows.) -/
theorem first_interactive_cmd_gated
    (s1 : GdbState) (cmd args : String)
    (h1 : s1.firstcmdline = none)
    (h1i : (s1.illegal_cmds_prefix.any (fun e => cmd.startsWith e)) = false)
    (h1s : cmd ≠ "set")
    (s2 : GdbState) (line : String) (c0 : Nat) (batch : List Nat)
    (h2 : s2.oob = some (c0 :: batch))
    (h2m : s2.miList ≠ [])
    (s3 : GdbState) (f : String) (n : Nat)
    (h3o : s3.oob = some [])
    (h3f : s3.firstcmdline = some f)
    (h3ne : f ≠ "")
    (h3l : s3.lastcmd = some (GCmd.mi n)) :
    ((user_cmd cmd args s1).written = s1.written
      ∧ (user_cmd cmd args s1).firstcmdline
          = some (if args = "" then cmd else cmd ++ " " ++ args))
    ∧ ((handle_line line s2).written = s2.written
        ∨ ∃ t m, (handle_line line s2).written = s2.written ++ [Wire.mi t m])
    ∧ ((handle_line promptLine s3).written
          = s3.written ++ [Wire.cli (tok3 s3.nextToken) f]
       ∧ (handle_line promptLine s3).oob = none
       ∧ (handle_line promptLine s3).firstcmdline = some "") := by
  refine ⟨?_, ?_, ?_⟩
  · simp [user_cmd, pre_cmd, default_cmd_processing, h1, h1i, h1s]
  · cases hcl : classify line with
    | empty => left; simp [handle_line, hcl]
    | stream content keep =>
      left
      by_cases hk : keep = true <;> simp [handle_line, hcl, hk]
    | mirecord token result =>
      left
      cases hr : (resultsRemove token s2.results).1 <;> simp [handle_line, hcl, hr]
    | prompt =>
      by_cases hlc : s2.lastcmd = some GCmd.cli ∨ s2.lastcmd = none
      · cases hml : s2.miList with
        | nil => exact absurd hml h2m
        | cons m ms =>
          right
          refine ⟨tok3 s2.nextToken, m, ?_⟩
          simp [handle_line, hcl, hlc, hml, sendCmdG]
      · right
        refine ⟨tok3 s2.nextToken, c0, ?_⟩
        simp [handle_line, hcl, hlc, h2, sendCmdG]
    | bad => left; simp [handle_line, hcl]
  · have hcl : classify promptLine = LineClass.prompt := by decide
    have hlc : ¬ (s3.lastcmd = some GCmd.cli ∨ s3.lastcmd = none) := by
      rw [h3l]; simp
    refine ⟨?_, ?_, ?_⟩ <;>
      simp [handle_line, hcl, hlc, h3o, h3f, h3ne, sendCli]

/-- Witness for `first_interactive_cmd_gated` along the concrete trace. -/
theorem first_interactive_cmd_gated_w :
    (traceG1.firstcmdline = none
     ∧ traceG2.oob = some [2, 3]
     ∧ traceG7pre.oob = some []
     ∧ traceG7pre.firstcmdline = some "break main"
     ∧ traceG7pre.lastcmd = some (GCmd.mi 3))
    ∧ (((user_cmd "break" "main" traceG1).written = traceG1.written
        ∧ (user_cmd "break" "main" traceG1).firstcmdline
            = some (if "main" = "" then "break" else "break" ++ " " ++ "main"))
       ∧ ((handle_line "(gdb) " traceG2).written = traceG2.written
           ∨ ∃ t m, (handle_line "(gdb) " traceG2).written = traceG2.written ++ [Wire.mi t m])
       ∧ ((handle_line promptLine traceG7pre).written
             = traceG7pre.written ++ [Wire.cli (tok3 traceG7pre.nextToken) "break main"]
          ∧ (handle_line promptLine traceG7pre).oob = none
          ∧ (handle_line promptLine traceG7pre).firstcmdline = some "")) :=
  ⟨⟨by decide, by decide, by decide, by decide, by decide⟩,
   first_interactive_cmd_gated traceG1 "break" "main" (by decide) (by decide)
     (by decide) traceG2 "(gdb) " 2 [3] (by decide) (by decide)
     traceG7pre "break main" 3 (by decide) (by decide) (by decide) (by decide)⟩

/-! ### Helper lemmas: the registry skeleton (for C4) -/

theorem foldl_inv {α β : Type} (Q : β → Prop) (g : β → α → β) (l : List α) (b : β)
    (hb : Q b) (h : ∀ x a, Q x → Q (g x a)) : Q (l.foldl g b) := by
  induction l generalizing b with
  | nil => exact hb
  | cons a l ih => exact ih _ (h _ _ hb)

theorem map_modList {α : Type} (g : VimBuffer → α) (f : VimBuffer → VimBuffer)
    (h : ∀ b, g (f b) = g b) (i : Nat) (l : List VimBuffer) :
    (modList i f l).map g = l.map g := by
  induction l generalizing i with
  | nil => simp [modList]
  | cons b bs ih =>
    cases i with
    | zero => simp [modList, h]
    | succ j => simp [modList, ih]

theorem fileKeys_modifyBuf (i : Nat) (f : VimBuffer → VimBuffer) (s : BufferSet)
    (h : ∀ b, ((f b).name, (f b).buf_id) = (b.name, b.buf_id)) :
    fileKeys (modifyBuf i f s) = fileKeys s :=
  map_modList _ f h i s.buf_list

theorem fileKeys_sendMsg (m : Msg) (s : BufferSet) :
    fileKeys (sendMsg m s) = fileKeys s := rfl

theorem fileKeys_mkNb (nb : NB) (s : BufferSet) :
    fileKeys { s with nb := nb } = fileKeys s := rfl

theorem fileKeys_mkDict (d : List (String × Nat)) (s : BufferSet) :
    fileKeys { s with anno_dict := d } = fileKeys s := rfl

theorem fileKeys_mkFrameSer (o : Option Nat) (s : BufferSet) :
    fileKeys { s with frame_sernum := o } = fileKeys s := rfl

theorem fileKeys_freshSernum (s : BufferSet) :
    fileKeys (freshSernum s).2 = fileKeys s := rfl

theorem fileKeys_remove_anno (i : Nat) (id : String) (s : BufferSet) :
    fileKeys (remove_anno i id s) = fileKeys s := by
  unfold remove_anno
  split
  · rfl
  split
  · rfl
  split
  · rw [fileKeys_modifyBuf, fileKeys_sendMsg]
    exact fun b => rfl
  · rw [fileKeys_modifyBuf]
    exact fun b => rfl

theorem fileKeys_define_frameanno (i : Nat) (s : BufferSet) :
    fileKeys (define_frameanno i s).2 = fileKeys s := by
  unfold define_frameanno
  split
  · rfl
  split
  · rw [fileKeys_sendMsg, fileKeys_modifyBuf]
    exact fun b => rfl
  · rfl

theorem fileKeys_define_bpanno (i : Nat) (s : BufferSet) :
    fileKeys (define_bpanno i s).2 = fileKeys s := by
  unfold define_bpanno
  split
  · rfl
  split
  · rw [fileKeys_sendMsg, fileKeys_sendMsg, fileKeys_modifyBuf]
    exact fun b => rfl
  · rfl

theorem fileKeys_bp_toggle (i : Nat) (id : String) (d : Bool) (s : BufferSet) :
    fileKeys (bp_toggle i id d s) = fileKeys s := by
  unfold bp_toggle
  split
  · rfl
  split
  · rfl
  split
  · rw [fileKeys_modifyBuf, fileKeys_remove_anno]
    exact fun b => rfl
  · rfl

theorem fileKeys_bp_place (i : Nat) (id : String) (s : BufferSet) :
    fileKeys (bp_place i id s) = fileKeys s := by
  unfold bp_place
  split
  · rfl
  split
  · rfl
  split
  · rfl
  · rw [fileKeys_modifyBuf, fileKeys_sendMsg, fileKeys_modifyBuf, fileKeys_mkNb,
      fileKeys_sendMsg, fileKeys_define_bpanno]
    · exact fun b => rfl
    · exact fun b => rfl

theorem fileKeys_frame_update (i : Nat) (id : String) (s : BufferSet) :
    fileKeys (frame_update i id s) = fileKeys s := by
  unfold frame_update
  split
  · rfl
  split
  · rfl
  split
  · rfl
  · rw [fileKeys_modifyBuf, fileKeys_sendMsg, fileKeys_modifyBuf, fileKeys_mkNb,
      fileKeys_sendMsg, fileKeys_define_frameanno]
    · exact fun b => rfl
    · exact fun b => rfl

theorem fileKeys_anno_update (i : Nat) (id : String) (d : Bool) (s : BufferSet) :
    fileKeys (anno_update i id d s).1 = fileKeys s := by
  unfold anno_update
  split
  · rfl
  split
  · rfl
  split
  · exact fileKeys_frame_update i id s
  · rw [show (bp_place i id (bp_toggle i id d s), (none : Option Err)).1
        = bp_place i id (bp_toggle i id d s) from rfl,
      fileKeys_bp_place, fileKeys_bp_toggle]

theorem fileKeys_buf_update (i : Nat) (annoId : Option String) (d : Bool)
    (s : BufferSet) : fileKeys (buf_update i annoId d s).1 = fileKeys s := by
  have hreg : ∀ t : BufferSet, ∀ bid : Nat, ∀ nm : String,
      fileKeys (modifyBuf i (fun b => { b with registered := true })
        (sendMsg (.stopDocumentListen bid)
          (sendMsg (.putBufferNumber bid nm)
            (sendMsg (.editFile bid nm) t)))) = fileKeys t := by
    intro t bid nm
    rw [fileKeys_modifyBuf, fileKeys_sendMsg, fileKeys_sendMsg, fileKeys_sendMsg]
    exact fun b => rfl
  have hfold : ∀ t : BufferSet, fileKeys t = fileKeys s → ∀ ks : List String,
      fileKeys (ks.foldl (fun st id => (anno_update i id false st).1) t) = fileKeys s := by
    intro t ht ks
    refine foldl_inv (fun st => fileKeys st = fileKeys s) _ ks t ht ?_
    intro x a hx
    rw [fileKeys_anno_update, hx]
  unfold buf_update
  split
  · rfl
  split <;> split <;>
    first
      | rfl
      | (rw [fileKeys_anno_update, hreg])
      | (rw [fileKeys_anno_update])
      | (exact hfold _ (hreg s _ _) _)
      | (exact hfold _ rfl _)

theorem fileKeys_buf_add_anno (i : Nat) (id : String) (lnum : Int) (s : BufferSet) :
    fileKeys (buf_add_anno i id lnum s).1 = fileKeys s := by
  unfold buf_add_anno
  split
  · rfl
  split
  · rfl
  split
  · split
    · rw [fileKeys_buf_update, fileKeys_modifyBuf]
      exact fun b => rfl
    · rw [fileKeys_buf_update, fileKeys_modifyBuf, fileKeys_mkFrameSer,
        fileKeys_freshSernum]
      exact fun b => rfl
  · rw [fileKeys_buf_update, fileKeys_modifyBuf, fileKeys_freshSernum]
    exact fun b => rfl

theorem fileKeys_buf_delete_anno (i : Nat) (id : String) (s : BufferSet) :
    fileKeys (buf_delete_anno i id s).1 = fileKeys s := by
  unfold buf_delete_anno
  split
  · rfl
  split
  · rw [fileKeys_modifyBuf, fileKeys_remove_anno]
    exact fun b => rfl
  · rfl

theorem fileKeys_buf_removeall (i : Nat) (lnum : Option Int) (s : BufferSet) :
    fileKeys (buf_removeall i lnum s) = fileKeys s := by
  unfold buf_removeall
  apply foldl_inv (fun st => fileKeys st = fileKeys s)
  · rfl
  · intro x a hx
    split
    · exact hx
    · split
      · rw [fileKeys_remove_anno]; exact hx
      · exact hx

theorem fileKeys_delete_all_buf (i : Nat) (lnum : Option Int) (s : BufferSet) :
    fileKeys (delete_all_buf i lnum s).1 = fileKeys s := by
  unfold delete_all_buf
  rw [fileKeys_modifyBuf, fileKeys_mkDict, fileKeys_buf_removeall]
  exact fun b => rfl

theorem fileKeys_getBuf (p : String) (s : BufferSet) :
    fileKeys (getBuf p s).2 = fileKeys s
    ∨ fileKeys (getBuf p s).2 = fileKeys s ++ [(p, s.buf_list.length + 1)] := by
  unfold getBuf
  split
  · exact Or.inl rfl
  · right
    simp [fileKeys]

theorem fileKeys_bs_add_anno (id p : String) (lnum : Int) (s : BufferSet) :
    fileKeys (bs_add_anno id p lnum s).1 = fileKeys s
    ∨ fileKeys (bs_add_anno id p lnum s).1
        = fileKeys s ++ [(p, s.buf_list.length + 1)] := by
  unfold bs_add_anno
  split
  · exact Or.inl rfl
  split
  · exact Or.inl rfl
  split
  · exact Or.inl rfl
  simp only [fileKeys_buf_add_anno, fileKeys_mkDict]
  exact fileKeys_getBuf p s

theorem fileKeys_bs_update_anno (id : String) (d : Bool) (s : BufferSet) :
    fileKeys (bs_update_anno id d s).1 = fileKeys s := by
  unfold bs_update_anno
  split
  · rfl
  · simp only [fileKeys_buf_update]

theorem fileKeys_bs_delete_anno (id : String) (s : BufferSet) :
    fileKeys (bs_delete_anno id s).1 = fileKeys s := by
  unfold bs_delete_anno
  split
  · rfl
  split <;> rename_i heq
  · have h2 := congrArg (fun r => fileKeys r.1) heq
    simp only at h2
    rw [← h2, fileKeys_buf_delete_anno]
  · have h2 := congrArg (fun r => fileKeys r.1) heq
    simp only at h2
    simp only [fileKeys_mkDict]
    rw [← h2, fileKeys_buf_delete_anno]

theorem fileKeys_length (s : BufferSet) :
    (fileKeys s).length = s.buf_list.length := by
  simp [fileKeys]

theorem fileKeys_bs_show_frame (p : Option String) (l : Int) (s : BufferSet) :
    fileKeys (bs_show_frame p l s).1 = fileKeys s
    ∨ ∃ q, fileKeys (bs_show_frame p l s).1
        = fileKeys s ++ [(q, s.buf_list.length + 1)] := by
  unfold bs_show_frame
  split
  · exact Or.inl rfl
  have hD : fileKeys (if dmem FRAME_ANNO_ID s.anno_dict = true
      then bs_delete_anno FRAME_ANNO_ID s else (s, none)).1 = fileKeys s := by
    split
    · exact fileKeys_bs_delete_anno _ s
    · rfl
  split
  · rename_i s' e' heq
    left
    have h3 := congrArg (fun r : BufferSet × Option Err => fileKeys r.1) heq
    simp only at h3
    rw [← h3]
    exact hD
  · rename_i s' heq
    have h3 := congrArg (fun r : BufferSet × Option Err => fileKeys r.1) heq
    simp only at h3
    have hs' : fileKeys s' = fileKeys s := by
      rw [← h3]
      exact hD
    have hlen : s'.buf_list.length = s.buf_list.length := by
      rw [← fileKeys_length, ← fileKeys_length, hs']
    split
    · exact Or.inl hs'
    rename_i q
    split
    · exact Or.inl hs'
    · rcases fileKeys_bs_add_anno FRAME_ANNO_ID q l s' with h | h
      · exact Or.inl (by rw [h, hs'])
      · exact Or.inr ⟨q, by rw [h, hs', hlen]⟩

theorem fileKeys_bs_delete_all (p : Option String) (l : Option Int) (s : BufferSet) :
    fileKeys (bs_delete_all p l s).1.1 = fileKeys s := by
  unfold bs_delete_all
  split
  · refine foldl_inv (fun acc : BufferSet × List String => fileKeys acc.1 = fileKeys s)
      _ _ _ rfl ?_
    intro x a hx
    show fileKeys (delete_all_buf a none x.1).1 = fileKeys s
    rw [fileKeys_delete_all_buf]
    exact hx
  · split
    · rfl
    · refine foldl_inv (fun acc : BufferSet × List String => fileKeys acc.1 = fileKeys s)
        _ _ _ rfl ?_
      intro x a hx
      show fileKeys (match x.1.buf_list.get? a with
        | some b => if b.name = _ then
            ((delete_all_buf a l x.1).1, x.2 ++ (delete_all_buf a l x.1).2)
          else x
        | none => x).1 = fileKeys s
      split
      · split
        · rw [fileKeys_delete_all_buf]
          exact hx
        · exact hx
      · exact hx

theorem fileKeys_bs_add_bp (id p : String) (l : Int) (s : BufferSet) :
    fileKeys (bs_add_bp id p l s).1 = fileKeys s
    ∨ fileKeys (bs_add_bp id p l s).1 = fileKeys s ++ [(p, s.buf_list.length + 1)] := by
  unfold bs_add_bp
  split
  · exact Or.inl rfl
  split
  · exact fileKeys_bs_add_anno id p l s
  · exact Or.inl rfl

theorem fileKeys_bs_update_bp (id : String) (d : Bool) (s : BufferSet) :
    fileKeys (bs_update_bp id d s).1 = fileKeys s := by
  unfold bs_update_bp
  split
  · exact fileKeys_bs_update_anno id d s
  · rfl

/-- Every operation either leaves the registry skeleton unchanged or
appends exactly one new file keyed with id `len + 1`. -/
theorem fileKeys_applyOp (s : BufferSet) (op : Op) :
    fileKeys (applyOp s op).1 = fileKeys s
    ∨ ∃ q, fileKeys (applyOp s op).1 = fileKeys s ++ [(q, s.buf_list.length + 1)] := by
  cases op with
  | addA id p l =>
    rcases fileKeys_bs_add_anno id p l s with h | h
    · exact Or.inl h
    · exact Or.inr ⟨p, h⟩
  | updateA id d => exact Or.inl (fileKeys_bs_update_anno id d s)
  | deleteA id => exact Or.inl (fileKeys_bs_delete_anno id s)
  | showFrame p l => exact fileKeys_bs_show_frame p l s
  | deleteAll p l => exact Or.inl (fileKeys_bs_delete_all p l s)
  | addBp id p l =>
    rcases fileKeys_bs_add_bp id p l s with h | h
    · exact Or.inl h
    · exact Or.inr ⟨p, h⟩
  | updateBp id d => exact Or.inl (fileKeys_bs_update_bp id d s)
  | refFile p =>
    show fileKeys (if ¬ pathIsAbs p then (s, some Err.valueError)
        else ((getBuf p s).2, none)).1 = fileKeys s
      ∨ ∃ q, fileKeys (if ¬ pathIsAbs p then (s, some Err.valueError)
        else ((getBuf p s).2, none)).1 = fileKeys s ++ [(q, s.buf_list.length + 1)]
    split
    · exact Or.inl rfl
    · rcases fileKeys_getBuf p s with h | h
      · exact Or.inl h
      · exact Or.inr ⟨p, h⟩
  | delItem p => exact Or.inl rfl

theorem idsFromK_append (n : Nat) (kl : List (String × Nat)) (q : String) (m : Nat) :
    idsFromK n (kl ++ [(q, m)]) = (idsFromK n kl && (m == n + kl.length)) := by
  induction kl generalizing n with
  | nil => simp [idsFromK]
  | cons kv rest ih =>
    have h1 : n + (rest.length + 1) = (n + 1) + rest.length := by omega
    simp only [List.cons_append, idsFromK, List.append_eq, ih, List.length_cons,
      h1, Bool.and_assoc]

theorem idsOk_applyOp (s : BufferSet) (op : Op) (h : idsOk s = true) :
    idsOk (applyOp s op).1 = true := by
  rcases fileKeys_applyOp s op with hk | ⟨q, hk⟩
  · unfold idsOk
    rw [hk]
    exact h
  · unfold idsOk
    rw [hk, idsFromK_append]
    unfold idsOk at h
    rw [h]
    simp [fileKeys_length, Nat.add_comm]

theorem prefix_applyOp (s : BufferSet) (op : Op) :
    fileKeys s <+: fileKeys (applyOp s op).1 := by
  rcases fileKeys_applyOp s op with hk | ⟨q, hk⟩
  · rw [hk]
  · rw [hk]
    exact List.prefix_append _ _

theorem idsOk_runOps (ops : List Op) : idsOk (runOps ops) = true := by
  unfold runOps
  apply foldl_inv (fun s => idsOk s = true)
  · rfl
  · intro x a hx
    exact idsOk_applyOp x a hx

theorem findBufIdx_none_iff (p : String) (l : List VimBuffer) :
    findBufIdx p l = none ↔ ¬ p ∈ l.map VimBuffer.name := by
  induction l with
  | nil => simp [findBufIdx]
  | cons b bs ih =>
    by_cases hb : b.name = p
    · simp [findBufIdx, hb]
    · simp [findBufIdx, hb, ih, Ne.symm hb]

theorem names_refFile_fold (paths : List String) : ∀ s : BufferSet,
    (∀ p ∈ paths, pathIsAbs p = true) → (∀ p ∈ paths, ¬ p ∈ bufNames s) →
    paths.Nodup →
    bufNames (paths.foldl (fun st p => (applyOp st (Op.refFile p)).1) s)
      = bufNames s ++ paths := by
  induction paths with
  | nil => intro s _ _ _; simp
  | cons p ps ih =>
    intro s habs hnm hnd
    have hp : pathIsAbs p = true := habs p (List.mem_cons_self p ps)
    have hpn : ¬ p ∈ bufNames s := hnm p (List.mem_cons_self p ps)
    have hfind : findBufIdx p s.buf_list = none := by
      rw [findBufIdx_none_iff]
      exact hpn
    have hstep : bufNames (applyOp s (Op.refFile p)).1 = bufNames s ++ [p] := by
      show bufNames (if ¬ pathIsAbs p then (s, some Err.valueError)
          else ((getBuf p s).2, none)).1 = _
      rw [hp]
      unfold getBuf
      rw [hfind]
      simp [bufNames]
    simp only [List.foldl_cons]
    rw [ih _ (fun q hq => habs q (List.mem_cons_of_mem p hq))
      (fun q hq => by
        rw [hstep]
        simp only [List.mem_append, List.mem_singleton]
        rintro (h1 | h1)
        · exact hnm q (List.mem_cons_of_mem p hq) h1
        · rw [h1] at hq
          exact (List.nodup_cons.mp hnd).1 hq)
      (List.nodup_cons.mp hnd).2]
    rw [hstep]
    simp

/-! ### Helper lemmas: frame-marker counting (for C5) -/

theorem aFrameCnt_amodify (id : String) (f : Anno → Anno) (l : List (String × Anno)) :
    aFrameCnt (amodify id f l) = aFrameCnt l := by
  induction l with
  | nil => rfl
  | cons kv rest ih =>
    cases kv with
    | mk k v =>
      by_cases hk : k = id <;> simp [amodify, hk, aFrameCnt, ih]

theorem aFrameCnt_append (l : List (String × Anno)) (id : String) (a : Anno) :
    aFrameCnt (l ++ [(id, a)])
      = aFrameCnt l + (if id = FRAME_ANNO_ID then 1 else 0) := by
  induction l with
  | nil => simp [aFrameCnt]
  | cons kv rest ih =>
    cases kv with
    | mk k v => simp [aFrameCnt, ih, Nat.add_assoc]

theorem amem_one_le_aFrameCnt (l : List (String × Anno))
    (h : amem FRAME_ANNO_ID l = true) : 1 ≤ aFrameCnt l := by
  induction l with
  | nil => simp [amem, alookup] at h
  | cons kv rest ih =>
    cases kv with
    | mk k v =>
      by_cases hk : k = FRAME_ANNO_ID
      · simp only [aFrameCnt, if_pos hk]
        omega
      · simp only [amem, alookup, if_neg hk] at h
        have h2 := ih h
        simp only [aFrameCnt, if_neg hk]
        omega

theorem aFrameCnt_zero_amem (l : List (String × Anno))
    (h : aFrameCnt l = 0) : amem FRAME_ANNO_ID l = false := by
  by_cases hm : amem FRAME_ANNO_ID l = true
  · have := amem_one_le_aFrameCnt l hm
    omega
  · simpa using hm

theorem aFrameCnt_aerase_frame (l : List (String × Anno))
    (h : amem FRAME_ANNO_ID l = true) :
    aFrameCnt (aerase FRAME_ANNO_ID l) + 1 = aFrameCnt l := by
  induction l with
  | nil => simp [amem, alookup] at h
  | cons kv rest ih =>
    cases kv with
    | mk k v =>
      by_cases hk : k = FRAME_ANNO_ID
      · simp only [aerase, if_pos hk, aFrameCnt]
        omega
      · simp only [amem, alookup, if_neg hk] at h
        have h2 := ih h
        simp only [aerase, if_neg hk, aFrameCnt]
        omega

theorem aFrameCnt_aerase_ne (id : String) (l : List (String × Anno))
    (h : id ≠ FRAME_ANNO_ID) :
    aFrameCnt (aerase id l) = aFrameCnt l := by
  induction l with
  | nil => rfl
  | cons kv rest ih =>
    cases kv with
    | mk k v =>
      by_cases hk : k = id
      · subst hk
        have h1 : aerase k ((k, v) :: rest) = rest := by simp [aerase]
        rw [h1]
        simp only [aFrameCnt, if_neg h]
        omega
      · simp only [aerase, if_neg hk, aFrameCnt, ih]

theorem aFrameCnt_aerase_le (id : String) (l : List (String × Anno)) :
    aFrameCnt (aerase id l) ≤ aFrameCnt l := by
  induction l with
  | nil => exact Nat.le_refl _
  | cons kv rest ih =>
    cases kv with
    | mk k v =>
      by_cases hk : k = id
      · have h1 : aerase id ((k, v) :: rest) = rest := by simp [aerase, hk]
        rw [h1]
        simp only [aFrameCnt]
        exact Nat.le_add_left _ _
      · simp only [aerase, if_neg hk, aFrameCnt]
        omega

theorem dmem_one_le_dFrameCnt (d : List (String × Nat))
    (h : dmem FRAME_ANNO_ID d = true) : 1 ≤ dFrameCnt d := by
  induction d with
  | nil => simp [dmem, dlookup] at h
  | cons kv rest ih =>
    cases kv with
    | mk k v =>
      by_cases hk : k = FRAME_ANNO_ID
      · simp only [dFrameCnt, if_pos hk]
        omega
      · simp only [dmem, dlookup, if_neg hk] at h
        have h2 := ih h
        simp only [dFrameCnt, if_neg hk]
        omega

theorem dFrameCnt_zero_dmem (d : List (String × Nat))
    (h : dFrameCnt d = 0) : dmem FRAME_ANNO_ID d = false := by
  by_cases hm : dmem FRAME_ANNO_ID d = true
  · have := dmem_one_le_dFrameCnt d hm
    omega
  · simpa using hm

theorem dFrameCnt_append (d : List (String × Nat)) (id : String) (i : Nat) :
    dFrameCnt (d ++ [(id, i)])
      = dFrameCnt d + (if id = FRAME_ANNO_ID then 1 else 0) := by
  induction d with
  | nil => simp [dFrameCnt]
  | cons kv rest ih =>
    cases kv with
    | mk k v => simp [dFrameCnt, ih, Nat.add_assoc]

theorem dFrameCnt_derase_frame (d : List (String × Nat))
    (h : dmem FRAME_ANNO_ID d = true) :
    dFrameCnt (derase FRAME_ANNO_ID d) + 1 = dFrameCnt d := by
  induction d with
  | nil => simp [dmem, dlookup] at h
  | cons kv rest ih =>
    cases kv with
    | mk k v =>
      by_cases hk : k = FRAME_ANNO_ID
      · simp only [derase, if_pos hk, dFrameCnt]
        omega
      · simp only [dmem, dlookup, if_neg hk] at h
        have h2 := ih h
        simp only [derase, if_neg hk, dFrameCnt]
        omega

theorem dFrameCnt_derase_ne (id : String) (d : List (String × Nat))
    (h : id ≠ FRAME_ANNO_ID) :
    dFrameCnt (derase id d) = dFrameCnt d := by
  induction d with
  | nil => rfl
  | cons kv rest ih =>
    cases kv with
    | mk k v =>
      by_cases hk : k = id
      · subst hk
        have h1 : derase k ((k, v) :: rest) = rest := by simp [derase]
        rw [h1]
        simp only [dFrameCnt, if_neg h]
        omega
      · simp only [derase, if_neg hk, dFrameCnt, ih]

theorem dFrameCnt_derase_le (id : String) (d : List (String × Nat)) :
    dFrameCnt (derase id d) ≤ dFrameCnt d := by
  induction d with
  | nil => exact Nat.le_refl _
  | cons kv rest ih =>
    cases kv with
    | mk k v =>
      by_cases hk : k = id
      · have h1 : derase id ((k, v) :: rest) = rest := by simp [derase, hk]
        rw [h1]
        simp only [dFrameCnt]
        exact Nat.le_add_left _ _
      · simp only [derase, if_neg hk, dFrameCnt]
        omega

theorem frameCntL_modList (i : Nat) (f : VimBuffer → VimBuffer)
    (l : List VimBuffer) :
    (l.get? i = none → frameCntL (modList i f l) = frameCntL l)
    ∧ (∀ b, l.get? i = some b →
        frameCntL (modList i f l) + aFrameCnt b.annos
          = frameCntL l + aFrameCnt (f b).annos) := by
  induction l generalizing i with
  | nil =>
    constructor
    · intro _; simp [modList]
    · intro b hb; simp at hb
  | cons c cs ih =>
    cases i with
    | zero =>
      constructor
      · intro h; simp at h
      · intro b hb
        simp at hb
        subst hb
        simp [modList, frameCntL]
        omega
    | succ j =>
      constructor
      · intro h
        simp only [List.get?] at h
        simp [modList, frameCntL, (ih j).1 h]
      · intro b hb
        simp only [List.get?] at hb
        have := (ih j).2 b hb
        simp [modList, frameCntL]
        omega

theorem frameCount_modifyBuf_none (i : Nat) (f : VimBuffer → VimBuffer)
    (s : BufferSet) (h : s.buf_list.get? i = none) :
    frameCount (modifyBuf i f s) = frameCount s :=
  (frameCntL_modList i f s.buf_list).1 h

theorem frameCount_modifyBuf_some (i : Nat) (f : VimBuffer → VimBuffer)
    (s : BufferSet) (b : VimBuffer) (h : s.buf_list.get? i = some b) :
    frameCount (modifyBuf i f s) + aFrameCnt b.annos
      = frameCount s + aFrameCnt (f b).annos :=
  (frameCntL_modList i f s.buf_list).2 b h

theorem frameCntL_append (l : List VimBuffer) (b : VimBuffer) :
    frameCntL (l ++ [b]) = frameCntL l + aFrameCnt b.annos := by
  induction l with
  | nil => simp [frameCntL]
  | cons c cs ih => simp [frameCntL, ih, Nat.add_assoc]

theorem frameCntL_zero_buf : ∀ (l : List VimBuffer) (i : Nat) (b : VimBuffer),
    frameCntL l = 0 → l.get? i = some b → aFrameCnt b.annos = 0 := by
  intro l
  induction l with
  | nil =>
    intro i b _ h
    simp at h
  | cons c cs ih =>
    intro i b hfc h
    rw [frameCntL] at hfc
    cases i with
    | zero =>
      simp at h
      subst h
      omega
    | succ j =>
      simp only [List.get?] at h
      exact ih j b (by omega) h

theorem frameCount_zero_buf (s : BufferSet) (i : Nat) (b : VimBuffer)
    (hfc : frameCount s = 0) (h : s.buf_list.get? i = some b) :
    aFrameCnt b.annos = 0 :=
  frameCntL_zero_buf s.buf_list i b hfc h

/-- C4: for every sequence of first references to N distinct absolute
file paths, the assigned file-ids are exactly 1..N in first-reference
order (`idsOk` holds of every reachable state and the registered names
are the reference order), and a file's entry and id persist: no operation
— including removal of all of a file's markers (`deleteAll`) and an
attempted deletion of the registry entry (`delItem`) — ever removes or
renumbers a registered file (the skeleton of the registry before any
further operation is a prefix of the skeleton after it). -/
theorem file_ids_assigned_once (ops : List Op) (op : Op) (paths : List String)
    (hnd : paths.Nodup) (habs : ∀ p ∈ paths, pathIsAbs p = true) :
    idsOk (runOps ops) = true
    ∧ fileKeys (runOps ops) <+: fileKeys (applyOp (runOps ops) op).1
    ∧ bufNames (runOps (paths.map Op.refFile)) = paths := by
  refine ⟨idsOk_runOps ops, prefix_applyOp _ op, ?_⟩
  unfold runOps
  rw [List.foldl_map]
  have h := names_refFile_fold paths initBS habs
    (fun q _ => by simp [bufNames, initBS]) hnd
  rw [h]
  rfl

/-- Witness for `file_ids_assigned_once`: a run that adds a marker,
deletes everything, and attempts a registry deletion; the ids stay 1..N
and two fresh paths register in order. -/
theorem file_ids_assigned_once_w :
    (["/src/a.c", "/src/b.c"] : List String).Nodup
    ∧ (∀ p ∈ (["/src/a.c", "/src/b.c"] : List String), pathIsAbs p = true)
    ∧ (idsOk (runOps [Op.addA "bp1" "/src/a.c" 42, Op.deleteAll none none,
          Op.delItem "/src/a.c"]) = true
       ∧ fileKeys (runOps [Op.addA "bp1" "/src/a.c" 42, Op.deleteAll none none,
            Op.delItem "/src/a.c"])
          <+: fileKeys (applyOp (runOps [Op.addA "bp1" "/src/a.c" 42,
            Op.deleteAll none none, Op.delItem "/src/a.c"])
            (Op.addA "bp2" "/src/c.c" 7)).1
       ∧ bufNames (runOps ([ "/src/a.c", "/src/b.c"].map Op.refFile))
          = ["/src/a.c", "/src/b.c"]) :=
  ⟨by decide, by decide,
   file_ids_assigned_once
     [Op.addA "bp1" "/src/a.c" 42, Op.deleteAll none none, Op.delItem "/src/a.c"]
     (Op.addA "bp2" "/src/c.c" 7) ["/src/a.c", "/src/b.c"] (by decide) (by decide)⟩

/-! ### Per-operation preservation of the frame counts and the dictionary -/

theorem frameCntL_eq_sum (l : List VimBuffer) :
    frameCntL l = (l.map (fun b => aFrameCnt b.annos)).sum := by
  induction l with
  | nil => rfl
  | cons b bs ih => simp [frameCntL, ih]

theorem frameCount_congr (a b : BufferSet) (h : bufCnts a = bufCnts b) :
    frameCount a = frameCount b := by
  unfold frameCount
  rw [frameCntL_eq_sum, frameCntL_eq_sum]
  unfold bufCnts at h
  rw [h]

theorem length_of_fileKeys_eq {a b : BufferSet} (h : fileKeys a = fileKeys b) :
    a.buf_list.length = b.buf_list.length := by
  rw [← fileKeys_length, ← fileKeys_length, h]

theorem get?_modList (i : Nat) (f : VimBuffer → VimBuffer) (l : List VimBuffer) :
    (modList i f l).get? i = (l.get? i).map f := by
  induction l generalizing i with
  | nil => simp [modList]
  | cons b bs ih =>
    cases i with
    | zero => simp [modList]
    | succ j => simpa [modList] using ih j

theorem dlookup_mem (id : String) (d : List (String × Nat)) (i : Nat)
    (h : dlookup id d = some i) : (id, i) ∈ d := by
  induction d with
  | nil => simp [dlookup] at h
  | cons kv rest ih =>
    cases kv with
    | mk k v =>
      by_cases hk : k = id
      · simp only [dlookup, if_pos hk] at h
        subst hk
        cases h
        exact List.mem_cons_self _ _
      · simp only [dlookup, if_neg hk] at h
        exact List.mem_cons_of_mem _ (ih h)

theorem mem_derase (id : String) (d : List (String × Nat)) (kv : String × Nat)
    (h : kv ∈ derase id d) : kv ∈ d := by
  induction d with
  | nil => simp [derase] at h
  | cons e rest ih =>
    cases e with
    | mk k v =>
      by_cases hk : k = id
      · simp only [derase, if_pos hk] at h
        exact List.mem_cons_of_mem _ h
      · simp only [derase, if_neg hk] at h
        rcases List.mem_cons.mp h with h1 | h1
        · exact h1 ▸ List.mem_cons_self _ _
        · exact List.mem_cons_of_mem _ (ih h1)

theorem get?_some_of_lt : ∀ (l : List VimBuffer) (i : Nat), i < l.length →
    ∃ b, l.get? i = some b := by
  intro l
  induction l with
  | nil =>
    intro i h
    simp at h
  | cons b bs ih =>
    intro i h
    cases i with
    | zero => exact ⟨b, rfl⟩
    | succ j =>
      simp only [List.length_cons] at h
      exact ih j (by omega)

theorem findBufIdx_some_lt (p : String) : ∀ (l : List VimBuffer) (i : Nat),
    findBufIdx p l = some i → i < l.length := by
  intro l
  induction l with
  | nil =>
    intro i h
    simp [findBufIdx] at h
  | cons b bs ih =>
    intro i h
    by_cases hb : b.name = p
    · simp only [findBufIdx, if_pos hb] at h
      cases h
      simp
    · simp only [findBufIdx, if_neg hb] at h
      cases hf : findBufIdx p bs with
      | none => rw [hf] at h; simp at h
      | some j =>
        rw [hf] at h
        simp at h
        have := ih j hf
        simp only [List.length_cons]
        omega

/-! bufCnts preservation (ops that only re-value markers in place). -/

theorem bufCnts_modifyBuf (i : Nat) (f : VimBuffer → VimBuffer) (s : BufferSet)
    (h : ∀ b, aFrameCnt (f b).annos = aFrameCnt b.annos) :
    bufCnts (modifyBuf i f s) = bufCnts s :=
  map_modList _ f h i s.buf_list

theorem bufCnts_sendMsg (m : Msg) (s : BufferSet) :
    bufCnts (sendMsg m s) = bufCnts s := rfl

theorem bufCnts_mkNb (nb : NB) (s : BufferSet) :
    bufCnts { s with nb := nb } = bufCnts s := rfl

theorem bufCnts_mkDict (d : List (String × Nat)) (s : BufferSet) :
    bufCnts { s with anno_dict := d } = bufCnts s := rfl

theorem bufCnts_mkFrameSer (o : Option Nat) (s : BufferSet) :
    bufCnts { s with frame_sernum := o } = bufCnts s := rfl

theorem bufCnts_freshSernum (s : BufferSet) :
    bufCnts (freshSernum s).2 = bufCnts s := rfl

theorem bufCnts_remove_anno (i : Nat) (id : String) (s : BufferSet) :
    bufCnts (remove_anno i id s) = bufCnts s := by
  unfold remove_anno
  split
  · rfl
  split
  · rfl
  split
  · rw [bufCnts_modifyBuf, bufCnts_sendMsg]
    exact fun b => aFrameCnt_amodify _ _ _
  · rw [bufCnts_modifyBuf]
    exact fun b => aFrameCnt_amodify _ _ _

theorem bufCnts_define_frameanno (i : Nat) (s : BufferSet) :
    bufCnts (define_frameanno i s).2 = bufCnts s := by
  unfold define_frameanno
  split
  · rfl
  split
  · rw [bufCnts_sendMsg, bufCnts_modifyBuf]
    exact fun b => rfl
  · rfl

theorem bufCnts_define_bpanno (i : Nat) (s : BufferSet) :
    bufCnts (define_bpanno i s).2 = bufCnts s := by
  unfold define_bpanno
  split
  · rfl
  split
  · rw [bufCnts_sendMsg, bufCnts_sendMsg, bufCnts_modifyBuf]
    exact fun b => rfl
  · rfl

theorem bufCnts_bp_toggle (i : Nat) (id : String) (d : Bool) (s : BufferSet) :
    bufCnts (bp_toggle i id d s) = bufCnts s := by
  unfold bp_toggle
  split
  · rfl
  split
  · rfl
  split
  · rw [bufCnts_modifyBuf, bufCnts_remove_anno]
    exact fun b => aFrameCnt_amodify _ _ _
  · rfl

theorem bufCnts_bp_place (i : Nat) (id : String) (s : BufferSet) :
    bufCnts (bp_place i id s) = bufCnts s := by
  unfold bp_place
  split
  · rfl
  split
  · rfl
  split
  · rfl
  · rw [bufCnts_modifyBuf, bufCnts_sendMsg, bufCnts_modifyBuf, bufCnts_mkNb,
      bufCnts_sendMsg, bufCnts_define_bpanno]
    · exact fun b => rfl
    · exact fun b => aFrameCnt_amodify _ _ _

theorem bufCnts_frame_update (i : Nat) (id : String) (s : BufferSet) :
    bufCnts (frame_update i id s) = bufCnts s := by
  unfold frame_update
  split
  · rfl
  split
  · rfl
  split
  · rfl
  · rw [bufCnts_modifyBuf, bufCnts_sendMsg, bufCnts_modifyBuf, bufCnts_mkNb,
      bufCnts_sendMsg, bufCnts_define_frameanno]
    · exact fun b => rfl
    · exact fun b => aFrameCnt_amodify _ _ _

theorem bufCnts_anno_update (i : Nat) (id : String) (d : Bool) (s : BufferSet) :
    bufCnts (anno_update i id d s).1 = bufCnts s := by
  unfold anno_update
  split
  · rfl
  split
  · rfl
  split
  · exact bufCnts_frame_update i id s
  · rw [show (bp_place i id (bp_toggle i id d s), (none : Option Err)).1
        = bp_place i id (bp_toggle i id d s) from rfl,
      bufCnts_bp_place, bufCnts_bp_toggle]

theorem bufCnts_buf_update (i : Nat) (annoId : Option String) (d : Bool)
    (s : BufferSet) : bufCnts (buf_update i annoId d s).1 = bufCnts s := by
  have hreg : ∀ t : BufferSet, ∀ bid : Nat, ∀ nm : String,
      bufCnts (modifyBuf i (fun b => { b with registered := true })
        (sendMsg (.stopDocumentListen bid)
          (sendMsg (.putBufferNumber bid nm)
            (sendMsg (.editFile bid nm) t)))) = bufCnts t := by
    intro t bid nm
    rw [bufCnts_modifyBuf, bufCnts_sendMsg, bufCnts_sendMsg, bufCnts_sendMsg]
    exact fun b => rfl
  have hfold : ∀ t : BufferSet, bufCnts t = bufCnts s → ∀ ks : List String,
      bufCnts (ks.foldl (fun st id => (anno_update i id false st).1) t) = bufCnts s := by
    intro t ht ks
    refine foldl_inv (fun st => bufCnts st = bufCnts s) _ ks t ht ?_
    intro x a hx
    rw [bufCnts_anno_update, hx]
  unfold buf_update
  split
  · rfl
  split <;> split <;>
    first
      | rfl
      | (rw [bufCnts_anno_update, hreg])
      | (rw [bufCnts_anno_update])
      | (exact hfold _ (hreg s _ _) _)
      | (exact hfold _ rfl _)

theorem bufCnts_buf_removeall (i : Nat) (lnum : Option Int) (s : BufferSet) :
    bufCnts (buf_removeall i lnum s) = bufCnts s := by
  unfold buf_removeall
  apply foldl_inv (fun st => bufCnts st = bufCnts s)
  · rfl
  · intro x a hx
    split
    · exact hx
    · split
      · rw [bufCnts_remove_anno]; exact hx
      · exact hx

/-! anno_dict preservation for the Buffer-level operations. -/

theorem dict_remove_anno (i : Nat) (id : String) (s : BufferSet) :
    (remove_anno i id s).anno_dict = s.anno_dict := by
  unfold remove_anno
  split
  · rfl
  split
  · rfl
  split <;> rfl

theorem dict_define_frameanno (i : Nat) (s : BufferSet) :
    (define_frameanno i s).2.anno_dict = s.anno_dict := by
  unfold define_frameanno
  split
  · rfl
  split <;> rfl

theorem dict_define_bpanno (i : Nat) (s : BufferSet) :
    (define_bpanno i s).2.anno_dict = s.anno_dict := by
  unfold define_bpanno
  split
  · rfl
  split <;> rfl

theorem dict_bp_toggle (i : Nat) (id : String) (d : Bool) (s : BufferSet) :
    (bp_toggle i id d s).anno_dict = s.anno_dict := by
  unfold bp_toggle
  split
  · rfl
  split
  · rfl
  split
  · rw [show (modifyBuf i _ (remove_anno i id s)).anno_dict
        = (remove_anno i id s).anno_dict from rfl, dict_remove_anno]
  · rfl

theorem dict_bp_place (i : Nat) (id : String) (s : BufferSet) :
    (bp_place i id s).anno_dict = s.anno_dict := by
  unfold bp_place
  split
  · rfl
  split
  · rfl
  split
  · rfl
  · rw [show ∀ t : BufferSet, ∀ f, (modifyBuf i f t).anno_dict = t.anno_dict
      from fun t f => rfl]
    rw [show ∀ t : BufferSet, ∀ m, (sendMsg m t).anno_dict = t.anno_dict
      from fun t m => rfl]
    rw [show ∀ t : BufferSet, ∀ f, (modifyBuf i f t).anno_dict = t.anno_dict
      from fun t f => rfl]
    rw [show ∀ t : BufferSet, ∀ nb, ({ t with nb := nb } : BufferSet).anno_dict
        = t.anno_dict from fun t nb => rfl]
    rw [show ∀ t : BufferSet, ∀ m, (sendMsg m t).anno_dict = t.anno_dict
      from fun t m => rfl]
    exact dict_define_bpanno i s

theorem dict_frame_update (i : Nat) (id : String) (s : BufferSet) :
    (frame_update i id s).anno_dict = s.anno_dict := by
  unfold frame_update
  split
  · rfl
  split
  · rfl
  split
  · rfl
  · rw [show ∀ t : BufferSet, ∀ f, (modifyBuf i f t).anno_dict = t.anno_dict
      from fun t f => rfl]
    rw [show ∀ t : BufferSet, ∀ m, (sendMsg m t).anno_dict = t.anno_dict
      from fun t m => rfl]
    rw [show ∀ t : BufferSet, ∀ f, (modifyBuf i f t).anno_dict = t.anno_dict
      from fun t f => rfl]
    rw [show ∀ t : BufferSet, ∀ nb, ({ t with nb := nb } : BufferSet).anno_dict
        = t.anno_dict from fun t nb => rfl]
    rw [show ∀ t : BufferSet, ∀ m, (sendMsg m t).anno_dict = t.anno_dict
      from fun t m => rfl]
    exact dict_define_frameanno i s

theorem dict_anno_update (i : Nat) (id : String) (d : Bool) (s : BufferSet) :
    (anno_update i id d s).1.anno_dict = s.anno_dict := by
  unfold anno_update
  split
  · rfl
  split
  · rfl
  split
  · exact dict_frame_update i id s
  · rw [show (bp_place i id (bp_toggle i id d s), (none : Option Err)).1
        = bp_place i id (bp_toggle i id d s) from rfl,
      dict_bp_place, dict_bp_toggle]

theorem dict_buf_update (i : Nat) (annoId : Option String) (d : Bool)
    (s : BufferSet) : (buf_update i annoId d s).1.anno_dict = s.anno_dict := by
  have hreg : ∀ t : BufferSet, ∀ bid : Nat, ∀ nm : String,
      (modifyBuf i (fun b => { b with registered := true })
        (sendMsg (.stopDocumentListen bid)
          (sendMsg (.putBufferNumber bid nm)
            (sendMsg (.editFile bid nm) t)))).anno_dict = t.anno_dict := by
    intro t bid nm
    rfl
  have hfold : ∀ t : BufferSet, t.anno_dict = s.anno_dict → ∀ ks : List String,
      (ks.foldl (fun st id => (anno_update i id false st).1) t).anno_dict
        = s.anno_dict := by
    intro t ht ks
    refine foldl_inv (fun st => st.anno_dict = s.anno_dict) _ ks t ht ?_
    intro x a hx
    rw [dict_anno_update, hx]
  unfold buf_update
  split
  · rfl
  split <;> split <;>
    first
      | rfl
      | (rw [dict_anno_update, hreg])
      | (rw [dict_anno_update])
      | (exact hfold _ (hreg s _ _) _)
      | (exact hfold _ rfl _)

theorem dict_buf_removeall (i : Nat) (lnum : Option Int) (s : BufferSet) :
    (buf_removeall i lnum s).anno_dict = s.anno_dict := by
  unfold buf_removeall
  exact foldl_inv (fun st : BufferSet => st.anno_dict = s.anno_dict) _ _ _ rfl
    (fun x a hx => by
      split
      · exact hx
      · split
        · rw [dict_remove_anno]; exact hx
        · exact hx)

theorem dict_buf_add_anno (i : Nat) (id : String) (lnum : Int) (s : BufferSet) :
    (buf_add_anno i id lnum s).1.anno_dict = s.anno_dict := by
  unfold buf_add_anno
  split
  · rfl
  split
  · rfl
  split
  · split
    · rw [dict_buf_update]
      rfl
    · rw [dict_buf_update]
      rfl
  · rw [dict_buf_update]
    rfl

theorem dict_buf_delete_anno (i : Nat) (id : String) (s : BufferSet) :
    (buf_delete_anno i id s).1.anno_dict = s.anno_dict := by
  unfold buf_delete_anno
  split
  · rfl
  split
  · rw [show ∀ t : BufferSet, ∀ f, (modifyBuf i f t).anno_dict = t.anno_dict
      from fun t f => rfl, dict_remove_anno]
  · rfl

theorem alookup_amodify (id : String) (f : Anno → Anno) (l : List (String × Anno)) :
    alookup id (amodify id f l) = (alookup id l).map f := by
  induction l with
  | nil => rfl
  | cons kv rest ih =>
    cases kv with
    | mk k v =>
      by_cases hk : k = id
      · simp [amodify, alookup, hk]
      · simp [amodify, alookup, hk, ih]

theorem amem_amodify (id : String) (f : Anno → Anno) (l : List (String × Anno)) :
    amem id (amodify id f l) = amem id l := by
  unfold amem
  rw [alookup_amodify]
  cases alookup id l <;> rfl

theorem alookup_append_none (id : String) (a : Anno) (l : List (String × Anno))
    (h : alookup id l = none) : alookup id (l ++ [(id, a)]) = some a := by
  induction l with
  | nil => simp [alookup]
  | cons kv rest ih =>
    cases kv with
    | mk k v =>
      by_cases hk : k = id
      · simp only [alookup, if_pos hk] at h
        cases h
      · simp only [alookup, if_neg hk] at h
        simp only [List.cons_append, alookup, if_neg hk]
        exact ih h

theorem frameCount_buf_update (i : Nat) (annoId : Option String) (d : Bool)
    (s : BufferSet) : frameCount (buf_update i annoId d s).1 = frameCount s :=
  frameCount_congr _ _ (bufCnts_buf_update i annoId d s)

theorem get?_remove_anno_some (i : Nat) (id : String) (s : BufferSet)
    (b : VimBuffer) (a : Anno)
    (hb : s.buf_list.get? i = some b) (ha : alookup id b.annos = some a) :
    (remove_anno i id s).buf_list.get? i
      = some { b with annos := amodify id (fun x => { x with is_set := false }) b.annos } := by
  unfold remove_anno
  simp only [hb, ha]
  split
  · show (modList i _ (sendMsg _ s).buf_list).get? i = _
    rw [get?_modList]
    show (s.buf_list.get? i).map _ = _
    rw [hb]
    rfl
  · show (modList i _ s.buf_list).get? i = _
    rw [get?_modList, hb]
    rfl

theorem anno_update_ok (i : Nat) (id : String) (d : Bool) (s : BufferSet)
    (b : VimBuffer) (a : Anno)
    (hb : s.buf_list.get? i = some b) (ha : alookup id b.annos = some a) :
    (anno_update i id d s).2 = none := by
  unfold anno_update
  simp only [hb, ha]
  split <;> rfl

theorem buf_update_some_ok (i : Nat) (id : String) (d : Bool) (s : BufferSet)
    (b : VimBuffer) (a : Anno)
    (hb : s.buf_list.get? i = some b) (ha : alookup id b.annos = some a) :
    (buf_update i (some id) d s).2 = none := by
  unfold buf_update
  simp only [hb]
  split
  · refine anno_update_ok i id d _
      { b with registered := true } a ?_ ?_
    · show (modList i _ (sendMsg _ (sendMsg _ (sendMsg _ s))).buf_list).get? i = _
      rw [get?_modList]
      show (s.buf_list.get? i).map _ = _
      rw [hb]
      rfl
    · exact ha
  · exact anno_update_ok i id d s b a hb ha

theorem frameCount_buf_add_anno_frame (i : Nat) (lnum : Int) (s : BufferSet)
    (b : VimBuffer) (hb : s.buf_list.get? i = some b)
    (hmem : amem FRAME_ANNO_ID b.annos = false) :
    frameCount (buf_add_anno i FRAME_ANNO_ID lnum s).1 = frameCount s + 1
    ∧ (buf_add_anno i FRAME_ANNO_ID lnum s).2 = none := by
  have hanone : alookup FRAME_ANNO_ID b.annos = none := by
    unfold amem at hmem
    cases hal : alookup FRAME_ANNO_ID b.annos with
    | none => rfl
    | some x => rw [hal] at hmem; simp at hmem
  unfold buf_add_anno
  simp only [hb]
  rw [if_neg (by rw [hmem]; simp)]
  rw [if_pos True.intro]
  have key : ∀ t : BufferSet, t.buf_list = s.buf_list → ∀ aa : Anno,
      frameCount (buf_update i (some FRAME_ANNO_ID) false
        (modifyBuf i
          (fun bb => { bb with annos := bb.annos ++ [(FRAME_ANNO_ID, aa)] }) t)).1
        = frameCount s + 1
      ∧ (buf_update i (some FRAME_ANNO_ID) false
        (modifyBuf i
          (fun bb => { bb with annos := bb.annos ++ [(FRAME_ANNO_ID, aa)] }) t)).2
        = none := by
    intro t ht aa
    have hbt : t.buf_list.get? i = some b := by rw [ht]; exact hb
    have hmod := frameCount_modifyBuf_some i
      (fun bb => { bb with annos := bb.annos ++ [(FRAME_ANNO_ID, aa)] }) t b hbt
    rw [aFrameCnt_append, if_pos rfl] at hmod
    have hfct : frameCount t = frameCount s := by
      unfold frameCount
      rw [ht]
    constructor
    · rw [frameCount_buf_update]
      omega
    · refine buf_update_some_ok i FRAME_ANNO_ID false _
        { b with annos := b.annos ++ [(FRAME_ANNO_ID, aa)] } aa ?_ ?_
      · show (modList i _ t.buf_list).get? i = _
        rw [get?_modList, hbt]
        rfl
      · exact alookup_append_none _ _ _ hanone
  split
  · rename_i n hn
    exact key (n, s).2 rfl _
  · exact key { (freshSernum s).2 with frame_sernum := some (freshSernum s).1 } rfl _

theorem frameCount_buf_add_anno_ne (i : Nat) (id : String) (lnum : Int)
    (s : BufferSet) (hid : id ≠ FRAME_ANNO_ID) :
    frameCount (buf_add_anno i id lnum s).1 = frameCount s := by
  unfold buf_add_anno
  cases hget : s.buf_list.get? i with
  | none => rfl
  | some b =>
    simp only [hget]
    by_cases hmem : amem id b.annos = true
    · rw [if_pos hmem]
    · rw [if_neg hmem, if_neg hid]
      have key : ∀ aa : Anno,
          frameCount (buf_update i (some id) false
            (modifyBuf i (fun bb => { bb with annos := bb.annos ++ [(id, aa)] })
              (freshSernum s).2)).1 = frameCount s := by
        intro aa
        have hbt : (freshSernum s).2.buf_list.get? i = some b := hget
        have hmod := frameCount_modifyBuf_some i
          (fun bb => { bb with annos := bb.annos ++ [(id, aa)] }) (freshSernum s).2 b hbt
        rw [aFrameCnt_append, if_neg hid] at hmod
        have hfct : frameCount (freshSernum s).2 = frameCount s := rfl
        rw [frameCount_buf_update]
        omega
      exact key _

theorem frameCount_buf_add_anno_le (i : Nat) (id : String) (lnum : Int)
    (s : BufferSet) :
    frameCount (buf_add_anno i id lnum s).1 ≤ frameCount s + 1 := by
  by_cases hid : id = FRAME_ANNO_ID
  · subst hid
    unfold buf_add_anno
    split
    · show frameCount s ≤ frameCount s + 1
      omega
    rename_i b hb
    split
    · show frameCount s ≤ frameCount s + 1
      omega
    rw [if_pos rfl]

    have key : ∀ t : BufferSet, t.buf_list = s.buf_list → ∀ aa : Anno,
        frameCount (buf_update i (some FRAME_ANNO_ID) false
          (modifyBuf i
            (fun bb => { bb with annos := bb.annos ++ [(FRAME_ANNO_ID, aa)] }) t)).1
          ≤ frameCount s + 1 := by
      intro t ht aa
      have hbt : t.buf_list.get? i = some b := by rw [ht]; exact hb
      have hmod := frameCount_modifyBuf_some i
        (fun bb => { bb with annos := bb.annos ++ [(FRAME_ANNO_ID, aa)] }) t b hbt
      rw [aFrameCnt_append] at hmod
      have hfct : frameCount t = frameCount s := by
        unfold frameCount
        rw [ht]
      rw [frameCount_buf_update]
      split at hmod <;> omega
    split
    · rename_i n hn
      exact key (n, s).2 rfl _
    · exact key { (freshSernum s).2 with frame_sernum := some (freshSernum s).1 } rfl _
  · rw [frameCount_buf_add_anno_ne i id lnum s hid]
    omega

theorem frameCount_buf_delete_frame (i : Nat) (s : BufferSet) (b : VimBuffer)
    (hb : s.buf_list.get? i = some b)
    (hmem : amem FRAME_ANNO_ID b.annos = true) :
    frameCount (buf_delete_anno i FRAME_ANNO_ID s).1 + 1 = frameCount s := by
  have ⟨a, ha⟩ : ∃ a, alookup FRAME_ANNO_ID b.annos = some a := by
    unfold amem at hmem
    cases hal : alookup FRAME_ANNO_ID b.annos with
    | none => rw [hal] at hmem; simp at hmem
    | some x => exact ⟨x, rfl⟩
  unfold buf_delete_anno
  simp only [hb]
  rw [if_pos hmem]
  have hrem := get?_remove_anno_some i FRAME_ANNO_ID s b a hb ha
  have hmod := frameCount_modifyBuf_some i
    (fun bb => { bb with annos := aerase FRAME_ANNO_ID bb.annos })
    (remove_anno i FRAME_ANNO_ID s)
    { b with annos := amodify FRAME_ANNO_ID (fun x => { x with is_set := false }) b.annos }
    hrem
  have hcnt1 : aFrameCnt (amodify FRAME_ANNO_ID (fun x => { x with is_set := false }) b.annos)
      = aFrameCnt b.annos := aFrameCnt_amodify _ _ _
  have hmem2 : amem FRAME_ANNO_ID
      (amodify FRAME_ANNO_ID (fun x => { x with is_set := false }) b.annos) = true := by
    rw [amem_amodify]
    exact hmem
  have herase := aFrameCnt_aerase_frame _ hmem2
  have hfcr : frameCount (remove_anno i FRAME_ANNO_ID s) = frameCount s :=
    frameCount_congr _ _ (bufCnts_remove_anno i FRAME_ANNO_ID s)
  show frameCount (modifyBuf i _ (remove_anno i FRAME_ANNO_ID s)) + 1 = frameCount s
  simp only at hmod
  omega

theorem frameCount_buf_delete_ne (i : Nat) (id : String) (s : BufferSet)
    (hid : id ≠ FRAME_ANNO_ID) :
    frameCount (buf_delete_anno i id s).1 = frameCount s := by
  unfold buf_delete_anno
  split
  · rfl
  rename_i b hb
  split
  · rename_i hmem
    have ⟨a, ha⟩ : ∃ a, alookup id b.annos = some a := by
      unfold amem at hmem
      cases hal : alookup id b.annos with
      | none => rw [hal] at hmem; simp at hmem
      | some x => exact ⟨x, rfl⟩
    have hrem := get?_remove_anno_some i id s b a hb ha
    have hmod := frameCount_modifyBuf_some i
      (fun bb => { bb with annos := aerase id bb.annos })
      (remove_anno i id s)
      { b with annos := amodify id (fun x => { x with is_set := false }) b.annos }
      hrem
    have hcnt1 : aFrameCnt (amodify id (fun x => { x with is_set := false }) b.annos)
        = aFrameCnt b.annos := aFrameCnt_amodify _ _ _
    have herase : aFrameCnt (aerase id
        (amodify id (fun x => { x with is_set := false }) b.annos))
        = aFrameCnt (amodify id (fun x => { x with is_set := false }) b.annos) :=
      aFrameCnt_aerase_ne id _ hid
    have hfcr : frameCount (remove_anno i id s) = frameCount s :=
      frameCount_congr _ _ (bufCnts_remove_anno i id s)
    show frameCount (modifyBuf i _ (remove_anno i id s)) = frameCount s
    simp only at hmod
    omega
  · rfl

theorem frameCount_buf_delete_le (i : Nat) (id : String) (s : BufferSet) :
    frameCount (buf_delete_anno i id s).1 ≤ frameCount s := by
  unfold buf_delete_anno
  split
  · exact Nat.le_refl _
  rename_i b hb
  split
  · rename_i hmem
    have ⟨a, ha⟩ : ∃ a, alookup id b.annos = some a := by
      unfold amem at hmem
      cases hal : alookup id b.annos with
      | none => rw [hal] at hmem; simp at hmem
      | some x => exact ⟨x, rfl⟩
    have hrem := get?_remove_anno_some i id s b a hb ha
    have hmod := frameCount_modifyBuf_some i
      (fun bb => { bb with annos := aerase id bb.annos })
      (remove_anno i id s)
      { b with annos := amodify id (fun x => { x with is_set := false }) b.annos }
      hrem
    have herase := aFrameCnt_aerase_le id
      (amodify id (fun x => { x with is_set := false }) b.annos)
    have hfcr : frameCount (remove_anno i id s) = frameCount s :=
      frameCount_congr _ _ (bufCnts_remove_anno i id s)
    show frameCount (modifyBuf i _ (remove_anno i id s)) ≤ frameCount s
    simp only at hmod
    omega
  · exact Nat.le_refl _

theorem buf_delete_anno_err (i : Nat) (id : String) (s : BufferSet)
    (h : (buf_delete_anno i id s).2 ≠ none) : (buf_delete_anno i id s).1 = s := by
  unfold buf_delete_anno at h ⊢
  cases hget : s.buf_list.get? i with
  | none => simp only [hget]
  | some b =>
    simp only [hget] at h ⊢
    by_cases hmem : amem id b.annos = true
    · exact absurd (by rw [if_pos hmem]) h
    · rw [if_neg hmem]

theorem aFrameCnt_pos_amem (l : List (String × Anno))
    (h : 1 ≤ aFrameCnt l) : amem FRAME_ANNO_ID l = true := by
  induction l with
  | nil => simp [aFrameCnt] at h
  | cons kv rest ih =>
    cases kv with
    | mk k v =>
      by_cases hk : k = FRAME_ANNO_ID
      · subst hk
        simp [amem, alookup]
      · simp only [aFrameCnt, if_neg hk] at h
        simp only [amem, alookup, if_neg hk]
        exact ih (by omega)

theorem dFrameCnt_pos_dmem (d : List (String × Nat))
    (h : 1 ≤ dFrameCnt d) : dmem FRAME_ANNO_ID d = true := by
  induction d with
  | nil => simp [dFrameCnt] at h
  | cons kv rest ih =>
    cases kv with
    | mk k v =>
      by_cases hk : k = FRAME_ANNO_ID
      · subst hk
        simp [dmem, dlookup]
      · simp only [dFrameCnt, if_neg hk] at h
        simp only [dmem, dlookup, if_neg hk]
        exact ih (by omega)

theorem dmem_false_cnt (d : List (String × Nat))
    (h : dmem FRAME_ANNO_ID d = false) : dFrameCnt d = 0 := by
  by_cases hc : 1 ≤ dFrameCnt d
  · rw [dFrameCnt_pos_dmem d hc] at h
    cases h
  · omega

theorem buf_le_frameCntL : ∀ (l : List VimBuffer) (i : Nat) (b : VimBuffer),
    l.get? i = some b → aFrameCnt b.annos ≤ frameCntL l := by
  intro l
  induction l with
  | nil =>
    intro i b h
    simp at h
  | cons c cs ih =>
    intro i b h
    rw [frameCntL]
    cases i with
    | zero =>
      simp at h
      subst h
      omega
    | succ j =>
      simp only [List.get?] at h
      have := ih j b h
      omega

theorem mem_keys_amem (id : String) (l : List (String × Anno))
    (h : id ∈ l.map Prod.fst) : amem id l = true := by
  induction l with
  | nil => simp at h
  | cons kv rest ih =>
    cases kv with
    | mk k v =>
      by_cases hk : k = id
      · subst hk
        simp [amem, alookup]
      · simp only [List.map_cons, List.mem_cons] at h
        rcases h with h1 | h1
        · exact absurd h1.symm hk
        · simp only [amem, alookup, if_neg hk]
          exact ih h1

theorem dFold_le (L : List String) (d : List (String × Nat)) :
    dFrameCnt (L.foldl (fun acc id => derase id acc) d) ≤ dFrameCnt d := by
  induction L generalizing d with
  | nil => exact Nat.le_refl _
  | cons x xs ih =>
    simp only [List.foldl_cons]
    exact Nat.le_trans (ih (derase x d)) (dFrameCnt_derase_le x d)

theorem dFold_eq_of_not_mem (L : List String) (d : List (String × Nat))
    (h : ¬ FRAME_ANNO_ID ∈ L) :
    dFrameCnt (L.foldl (fun acc id => derase id acc) d) = dFrameCnt d := by
  induction L generalizing d with
  | nil => rfl
  | cons x xs ih =>
    simp only [List.mem_cons, not_or] at h
    simp only [List.foldl_cons]
    rw [ih (derase x d) h.2, dFrameCnt_derase_ne x d (fun hx => h.1 hx.symm)]

theorem aFold_le (L : List String) (l : List (String × Anno)) :
    aFrameCnt (L.foldl (fun acc id => aerase id acc) l) ≤ aFrameCnt l := by
  induction L generalizing l with
  | nil => exact Nat.le_refl _
  | cons x xs ih =>
    simp only [List.foldl_cons]
    exact Nat.le_trans (ih (aerase x l)) (aFrameCnt_aerase_le x l)

theorem aFold_eq_of_not_mem (L : List String) (l : List (String × Anno))
    (h : ¬ FRAME_ANNO_ID ∈ L) :
    aFrameCnt (L.foldl (fun acc id => aerase id acc) l) = aFrameCnt l := by
  induction L generalizing l with
  | nil => rfl
  | cons x xs ih =>
    simp only [List.mem_cons, not_or] at h
    simp only [List.foldl_cons]
    rw [ih (aerase x l) h.2, aFrameCnt_aerase_ne x l (fun hx => h.1 hx.symm)]

theorem aFold_zero (L : List String) (l : List (String × Anno))
    (hle : aFrameCnt l ≤ 1) (hm : FRAME_ANNO_ID ∈ L) :
    aFrameCnt (L.foldl (fun acc id => aerase id acc) l) = 0 := by
  induction L generalizing l with
  | nil => simp at hm
  | cons x xs ih =>
    simp only [List.foldl_cons]
    rcases List.mem_cons.mp hm with h1 | h1
    · subst h1
      have hz : aFrameCnt (aerase FRAME_ANNO_ID l) = 0 := by
        by_cases ha : amem FRAME_ANNO_ID l = true
        · have := aFrameCnt_aerase_frame l ha
          omega
        · have hz0 : aFrameCnt l = 0 := by
            by_cases hc : 1 ≤ aFrameCnt l
            · rw [aFrameCnt_pos_amem l hc] at ha
              simp at ha
            · omega
          have := aFrameCnt_aerase_le FRAME_ANNO_ID l
          omega
      have := aFold_le xs (aerase FRAME_ANNO_ID l)
      omega
    · exact ih (aerase x l) (Nat.le_trans (aFrameCnt_aerase_le x l) hle) h1

theorem mem_dFold (L : List String) (d : List (String × Nat)) (kv : String × Nat)
    (h : kv ∈ L.foldl (fun acc id => derase id acc) d) : kv ∈ d := by
  induction L generalizing d with
  | nil => exact h
  | cons x xs ih =>
    simp only [List.foldl_cons] at h
    exact mem_derase x d kv (ih (derase x d) h)

theorem frameCount_getBuf (p : String) (s : BufferSet) :
    frameCount (getBuf p s).2 = frameCount s := by
  unfold getBuf
  split
  · rfl
  · show frameCntL (s.buf_list ++ [_]) = frameCntL s.buf_list
    rw [frameCntL_append]
    rfl

theorem dict_getBuf (p : String) (s : BufferSet) :
    (getBuf p s).2.anno_dict = s.anno_dict := by
  unfold getBuf
  split <;> rfl

theorem getBuf_lt (p : String) (s : BufferSet) :
    (getBuf p s).1 < (getBuf p s).2.buf_list.length := by
  unfold getBuf
  split
  · rename_i i hi
    exact findBufIdx_some_lt p s.buf_list i hi
  · simp

theorem length_getBuf_ge (p : String) (s : BufferSet) :
    s.buf_list.length ≤ (getBuf p s).2.buf_list.length := by
  unfold getBuf
  split
  · exact Nat.le_refl _
  · simp

/-! The frame invariant `FI` is preserved by every operation. -/

theorem FI_transport (a b : BufferSet) (h : FI a)
    (hfc : frameCount b = frameCount a)
    (hd : b.anno_dict = a.anno_dict)
    (hlen : a.buf_list.length ≤ b.buf_list.length) : FI b := by
  obtain ⟨h1, h2, h3, h4⟩ := h
  exact ⟨by rw [hfc]; exact h1,
    by rw [hfc, hd]; exact h2,
    by rw [hd]; exact h3,
    fun kv hkv => Nat.lt_of_lt_of_le (h4 kv (hd ▸ hkv)) hlen⟩

theorem FI_buf_update (i : Nat) (oid : Option String) (d : Bool) (s : BufferSet)
    (h : FI s) : FI (buf_update i oid d s).1 :=
  FI_transport s _ h (frameCount_buf_update i oid d s) (dict_buf_update i oid d s)
    (Nat.le_of_eq (length_of_fileKeys_eq (fileKeys_buf_update i oid d s)).symm)

theorem FI_bs_update_anno (id : String) (d : Bool) (s : BufferSet) (h : FI s) :
    FI (bs_update_anno id d s).1 := by
  unfold bs_update_anno
  cases hdl : dlookup id s.anno_dict with
  | none => exact h
  | some i => exact FI_buf_update i (some id) d s h

theorem FI_buf_add_aux (i : Nat) (id : String) (lnum : Int) (t : BufferSet)
    (b0 : VimBuffer) (hb0 : t.buf_list.get? i = some b0)
    (h1 : frameCount t ≤ 1)
    (h2 : 1 ≤ frameCount t → 1 ≤ dFrameCnt t.anno_dict)
    (h3 : dFrameCnt t.anno_dict ≤ 1)
    (h4 : ∀ kv ∈ t.anno_dict, kv.2 < t.buf_list.length)
    (hi : i < t.buf_list.length)
    (hfr : id = FRAME_ANNO_ID → frameCount t = 0 ∧ dFrameCnt t.anno_dict = 0) :
    FI (buf_add_anno i id lnum { t with anno_dict := t.anno_dict ++ [(id, i)] }).1 := by
  by_cases hid : id = FRAME_ANNO_ID
  · subst hid
    obtain ⟨hfc0, hdc0⟩ := hfr rfl
    have hcz : aFrameCnt b0.annos = 0 :=
      frameCntL_zero_buf t.buf_list i b0 hfc0 hb0
    have hmem : amem FRAME_ANNO_ID b0.annos = false := aFrameCnt_zero_amem b0.annos hcz
    have main := frameCount_buf_add_anno_frame i lnum
      { t with anno_dict := t.anno_dict ++ [(FRAME_ANNO_ID, i)] } b0 hb0 hmem
    have hfc1 : frameCount
        { t with anno_dict := t.anno_dict ++ [(FRAME_ANNO_ID, i)] } = 0 := hfc0
    have hdict := dict_buf_add_anno i FRAME_ANNO_ID lnum
      { t with anno_dict := t.anno_dict ++ [(FRAME_ANNO_ID, i)] }
    have hlen := length_of_fileKeys_eq (fileKeys_buf_add_anno i FRAME_ANNO_ID lnum
      { t with anno_dict := t.anno_dict ++ [(FRAME_ANNO_ID, i)] })
    refine ⟨?_, ?_, ?_, ?_⟩
    · rw [main.1, hfc1]
    · intro _
      rw [hdict]
      show 1 ≤ dFrameCnt (t.anno_dict ++ [(FRAME_ANNO_ID, i)])
      rw [dFrameCnt_append, if_pos rfl]
      omega
    · rw [hdict]
      show dFrameCnt (t.anno_dict ++ [(FRAME_ANNO_ID, i)]) ≤ 1
      rw [dFrameCnt_append, if_pos rfl]
      omega
    · intro kv hkv
      rw [hdict] at hkv
      have hkv' : kv ∈ t.anno_dict ++ [(FRAME_ANNO_ID, i)] := hkv
      rw [hlen]
      rcases List.mem_append.mp hkv' with hl | hl
      · exact h4 kv hl
      · have hkve : kv = (FRAME_ANNO_ID, i) := by simpa using hl
        subst hkve
        exact hi
  · have hfc' := frameCount_buf_add_anno_ne i id lnum
      { t with anno_dict := t.anno_dict ++ [(id, i)] } hid
    have hdict := dict_buf_add_anno i id lnum
      { t with anno_dict := t.anno_dict ++ [(id, i)] }
    have hlen := length_of_fileKeys_eq (fileKeys_buf_add_anno i id lnum
      { t with anno_dict := t.anno_dict ++ [(id, i)] })
    have hdcnt : dFrameCnt (t.anno_dict ++ [(id, i)]) = dFrameCnt t.anno_dict := by
      rw [dFrameCnt_append, if_neg hid]
      omega
    refine ⟨?_, ?_, ?_, ?_⟩
    · rw [hfc']
      exact h1
    · intro hge
      rw [hfc'] at hge
      rw [hdict]
      show 1 ≤ dFrameCnt (t.anno_dict ++ [(id, i)])
      rw [hdcnt]
      exact h2 hge
    · rw [hdict]
      show dFrameCnt (t.anno_dict ++ [(id, i)]) ≤ 1
      rw [hdcnt]
      exact h3
    · intro kv hkv
      rw [hdict] at hkv
      have hkv' : kv ∈ t.anno_dict ++ [(id, i)] := hkv
      rw [hlen]
      rcases List.mem_append.mp hkv' with hl | hl
      · exact h4 kv hl
      · have hkve : kv = (id, i) := by simpa using hl
        subst hkve
        exact hi

theorem FI_bs_add_anno (id p : String) (lnum : Int) (s : BufferSet) (h : FI s) :
    FI (bs_add_anno id p lnum s).1 := by
  unfold bs_add_anno
  by_cases h1 : lnum ≤ 0
  · rw [if_pos h1]
    exact h
  rw [if_neg h1]
  by_cases h2 : dmem id s.anno_dict = true
  · rw [if_pos h2]
    exact h
  rw [if_neg h2]
  by_cases h3 : pathIsAbs p = true
  · rw [if_neg (not_not_intro h3)]
    obtain ⟨c1, c2, c3, c4⟩ := h
    obtain ⟨b0, hb0⟩ :=
      get?_some_of_lt (getBuf p s).2.buf_list (getBuf p s).1 (getBuf_lt p s)
    have hdm : dmem id s.anno_dict = false := by
      cases hx : dmem id s.anno_dict
      · rfl
      · exact absurd hx h2
    have hfga : frameCount (getBuf p s).2 = frameCount s := frameCount_getBuf p s
    have hdga : (getBuf p s).2.anno_dict = s.anno_dict := dict_getBuf p s
    have ha1 : frameCount (getBuf p s).2 ≤ 1 := by
      rw [hfga]
      exact c1
    have ha2 : 1 ≤ frameCount (getBuf p s).2 →
        1 ≤ dFrameCnt (getBuf p s).2.anno_dict := by
      rw [hfga, hdga]
      exact c2
    have ha3 : dFrameCnt (getBuf p s).2.anno_dict ≤ 1 := by
      rw [hdga]
      exact c3
    have ha4 : ∀ kv ∈ (getBuf p s).2.anno_dict,
        kv.2 < (getBuf p s).2.buf_list.length := by
      rw [hdga]
      intro kv hkv
      exact Nat.lt_of_lt_of_le (c4 kv hkv) (length_getBuf_ge p s)
    have hfr : id = FRAME_ANNO_ID →
        frameCount (getBuf p s).2 = 0 ∧ dFrameCnt (getBuf p s).2.anno_dict = 0 := by
      intro hide
      subst hide
      have hd0 : dFrameCnt s.anno_dict = 0 := dmem_false_cnt s.anno_dict hdm
      have hf0 : frameCount s = 0 := by
        by_cases hc : 1 ≤ frameCount s
        · have := c2 hc
          omega
        · omega
      rw [hfga, hdga]
      exact ⟨hf0, hd0⟩
    exact FI_buf_add_aux (getBuf p s).1 id lnum (getBuf p s).2 b0 hb0 ha1 ha2 ha3
      ha4 (getBuf_lt p s) hfr
  · rw [if_pos h3]
    exact h

theorem FI_bs_delete_anno (id : String) (s : BufferSet) (h : FI s) :
    FI (bs_delete_anno id s).1 := by
  unfold bs_delete_anno
  cases hdl : dlookup id s.anno_dict with
  | none => exact h
  | some i =>
    obtain ⟨c1, c2, c3, c4⟩ := h
    have hin : (id, i) ∈ s.anno_dict := dlookup_mem id s.anno_dict i hdl
    have hlt : i < s.buf_list.length := c4 (id, i) hin
    obtain ⟨b, hb⟩ := get?_some_of_lt s.buf_list i hlt
    show FI (match buf_delete_anno i id s with
      | (u, some e) => (u, some e)
      | (u, none) => ({ u with anno_dict := derase id u.anno_dict }, none)).1
    cases hr : buf_delete_anno i id s with
    | mk t e =>
      cases e with
      | some err =>
        have hts : t = s := by
          have herr := buf_delete_anno_err i id s (by rw [hr]; simp)
          rw [hr] at herr
          exact herr
        subst hts
        exact ⟨c1, c2, c3, c4⟩
      | none =>
        have hdict : t.anno_dict = s.anno_dict := by
          have hd := dict_buf_delete_anno i id s
          rw [hr] at hd
          exact hd
        have hlen : t.buf_list.length = s.buf_list.length := by
          have hl := length_of_fileKeys_eq (fileKeys_buf_delete_anno i id s)
          rw [hr] at hl
          exact hl
        by_cases hid : id = FRAME_ANNO_ID
        · subst hid
          by_cases hmem : amem FRAME_ANNO_ID b.annos = true
          · have hfc := frameCount_buf_delete_frame i s b hb hmem
            rw [hr] at hfc
            have hfct : frameCount t + 1 = frameCount s := hfc
            have hdmem : dmem FRAME_ANNO_ID s.anno_dict = true := by
              unfold dmem
              rw [hdl]
              rfl
            have hder : dFrameCnt (derase FRAME_ANNO_ID s.anno_dict) + 1
                = dFrameCnt s.anno_dict := dFrameCnt_derase_frame s.anno_dict hdmem
            have hft0 : frameCount t = 0 := by omega
            refine ⟨?_, ?_, ?_, ?_⟩
            · show frameCount t ≤ 1
              omega
            · intro hge
              have hge' : 1 ≤ frameCount t := hge
              omega
            · show dFrameCnt (derase FRAME_ANNO_ID t.anno_dict) ≤ 1
              rw [hdict]
              omega
            · intro kv hkv
              have hkv' : kv ∈ derase FRAME_ANNO_ID t.anno_dict := hkv
              rw [hdict] at hkv'
              have hkvm := mem_derase FRAME_ANNO_ID s.anno_dict kv hkv'
              have := c4 kv hkvm
              show kv.2 < t.buf_list.length
              omega
          · exfalso
            unfold buf_delete_anno at hr
            simp only [hb] at hr
            rw [if_neg hmem] at hr
            simp at hr
        · have hfc := frameCount_buf_delete_ne i id s hid
          rw [hr] at hfc
          have hfct : frameCount t = frameCount s := hfc
          have hder : dFrameCnt (derase id s.anno_dict) = dFrameCnt s.anno_dict :=
            dFrameCnt_derase_ne id s.anno_dict hid
          refine ⟨?_, ?_, ?_, ?_⟩
          · show frameCount t ≤ 1
            omega
          · intro hge
            have hge' : 1 ≤ frameCount t := hge
            show 1 ≤ dFrameCnt (derase id t.anno_dict)
            rw [hdict, hder]
            exact c2 (by omega)
          · show dFrameCnt (derase id t.anno_dict) ≤ 1
            rw [hdict, hder]
            exact c3
          · intro kv hkv
            have hkv' : kv ∈ derase id t.anno_dict := hkv
            rw [hdict] at hkv'
            have hkvm := mem_derase id s.anno_dict kv hkv'
            have := c4 kv hkvm
            show kv.2 < t.buf_list.length
            omega

theorem FI_bs_show_frame (p : Option String) (lnum : Int) (s : BufferSet)
    (h : FI s) : FI (bs_show_frame p lnum s).1 := by
  unfold bs_show_frame
  by_cases h1 : lnum ≤ 0
  · rw [if_pos h1]
    exact h
  rw [if_neg h1]
  have hdel : FI (if dmem FRAME_ANNO_ID s.anno_dict then
      bs_delete_anno FRAME_ANNO_ID s else (s, none)).1 := by
    split
    · exact FI_bs_delete_anno FRAME_ANNO_ID s h
    · exact h
  cases hm : (if dmem FRAME_ANNO_ID s.anno_dict then
      bs_delete_anno FRAME_ANNO_ID s else (s, none)) with
  | mk t e =>
    rw [hm] at hdel
    have hdel' : FI t := hdel
    cases e with
    | some err => exact hdel'
    | none =>
      cases p with
      | none => exact hdel'
      | some q =>
        show FI (if q = "" then ((t, none) : BufferSet × Option Err)
          else bs_add_anno FRAME_ANNO_ID q lnum t).1
        by_cases hq : q = ""
        · rw [if_pos hq]
          exact hdel'
        · rw [if_neg hq]
          exact FI_bs_add_anno FRAME_ANNO_ID q lnum t hdel'

theorem FI_erase_block (i : Nat) (L : List String) (t : BufferSet)
    (h1 : frameCount t ≤ 1)
    (h2 : 1 ≤ frameCount t → 1 ≤ dFrameCnt t.anno_dict)
    (h3 : dFrameCnt t.anno_dict ≤ 1)
    (h4 : ∀ kv ∈ t.anno_dict, kv.2 < t.buf_list.length)
    (hmem : FRAME_ANNO_ID ∈ L → ∃ b, t.buf_list.get? i = some b ∧
        amem FRAME_ANNO_ID b.annos = true) :
    FI (modifyBuf i
      (fun b => { b with annos := L.foldl (fun l id => aerase id l) b.annos })
      { t with anno_dict := L.foldl (fun d id => derase id d) t.anno_dict }) := by
  have hdle : dFrameCnt (L.foldl (fun d id => derase id d) t.anno_dict)
      ≤ dFrameCnt t.anno_dict := dFold_le L t.anno_dict
  have hlen : (modifyBuf i
      (fun b => { b with annos := L.foldl (fun l id => aerase id l) b.annos })
      { t with anno_dict :=
        L.foldl (fun d id => derase id d) t.anno_dict }).buf_list.length
      = t.buf_list.length :=
    length_of_fileKeys_eq (fileKeys_modifyBuf i
      (fun b => { b with annos := L.foldl (fun l id => aerase id l) b.annos })
      { t with anno_dict := L.foldl (fun d id => derase id d) t.anno_dict }
      (fun b => rfl))
  have hc4 : ∀ kv ∈ L.foldl (fun d id => derase id d) t.anno_dict,
      kv.2 < t.buf_list.length := by
    intro kv hkv
    exact h4 kv (mem_dFold L t.anno_dict kv hkv)
  cases hget : t.buf_list.get? i with
  | none =>
    have hnot : ¬ FRAME_ANNO_ID ∈ L := by
      intro hinm
      obtain ⟨b, hb, -⟩ := hmem hinm
      rw [hget] at hb
      cases hb
    have hdeq : dFrameCnt (L.foldl (fun d id => derase id d) t.anno_dict)
        = dFrameCnt t.anno_dict := dFold_eq_of_not_mem L t.anno_dict hnot
    have hfc : frameCount (modifyBuf i
        (fun b => { b with annos := L.foldl (fun l id => aerase id l) b.annos })
        { t with anno_dict := L.foldl (fun d id => derase id d) t.anno_dict })
        = frameCount t :=
      frameCount_modifyBuf_none i _ _ hget
    refine ⟨?_, ?_, ?_, ?_⟩
    · rw [hfc]
      exact h1
    · intro hge
      rw [hfc] at hge
      show 1 ≤ dFrameCnt (L.foldl (fun d id => derase id d) t.anno_dict)
      rw [hdeq]
      exact h2 hge
    · show dFrameCnt (L.foldl (fun d id => derase id d) t.anno_dict) ≤ 1
      omega
    · intro kv hkv
      have hkv' : kv ∈ L.foldl (fun d id => derase id d) t.anno_dict := hkv
      rw [hlen]
      exact hc4 kv hkv'
  | some b =>
    have hfc := frameCount_modifyBuf_some i
      (fun bb => { bb with annos := L.foldl (fun l id => aerase id l) bb.annos })
      { t with anno_dict := L.foldl (fun d id => derase id d) t.anno_dict } b hget
    have hble : aFrameCnt b.annos ≤ frameCount t := buf_le_frameCntL t.buf_list i b hget
    have hfct : frameCount
        { t with anno_dict := L.foldl (fun d id => derase id d) t.anno_dict }
        = frameCount t := rfl
    by_cases hinm : FRAME_ANNO_ID ∈ L
    · obtain ⟨b', hb', hbm⟩ := hmem hinm
      have hbb : b' = b := by
        rw [hget] at hb'
        cases hb'
        rfl
      subst hbb
      have hge1 : 1 ≤ aFrameCnt b'.annos := amem_one_le_aFrameCnt b'.annos hbm
      have hz : aFrameCnt (L.foldl (fun l id => aerase id l) b'.annos) = 0 :=
        aFold_zero L b'.annos (by omega) hinm
      have hfc' : frameCount (modifyBuf i
          (fun bb => { bb with annos := L.foldl (fun l id => aerase id l) bb.annos })
          { t with anno_dict := L.foldl (fun d id => derase id d) t.anno_dict })
          + aFrameCnt b'.annos = frameCount t := by
        rw [hfct, hz] at hfc
        omega
      refine ⟨?_, ?_, ?_, ?_⟩
      · omega
      · intro hge
        omega
      · show dFrameCnt (L.foldl (fun d id => derase id d) t.anno_dict) ≤ 1
        omega
      · intro kv hkv
        have hkv' : kv ∈ L.foldl (fun d id => derase id d) t.anno_dict := hkv
        rw [hlen]
        exact hc4 kv hkv'
    · have haeq : aFrameCnt (L.foldl (fun l id => aerase id l) b.annos)
          = aFrameCnt b.annos := aFold_eq_of_not_mem L b.annos hinm
      have hdeq : dFrameCnt (L.foldl (fun d id => derase id d) t.anno_dict)
          = dFrameCnt t.anno_dict := dFold_eq_of_not_mem L t.anno_dict hinm
      rw [haeq, hfct] at hfc
      refine ⟨?_, ?_, ?_, ?_⟩
      · omega
      · intro hge
        show 1 ≤ dFrameCnt (L.foldl (fun d id => derase id d) t.anno_dict)
        rw [hdeq]
        exact h2 (by omega)
      · show dFrameCnt (L.foldl (fun d id => derase id d) t.anno_dict) ≤ 1
        omega
      · intro kv hkv
        have hkv' : kv ∈ L.foldl (fun d id => derase id d) t.anno_dict := hkv
        rw [hlen]
        exact hc4 kv hkv'

theorem FI_delete_all_buf (i : Nat) (lnum : Option Int) (s : BufferSet)
    (h : FI s) : FI (delete_all_buf i lnum s).1 := by
  obtain ⟨c1, c2, c3, c4⟩ := h
  have hfc1 : frameCount (buf_removeall i lnum s) = frameCount s :=
    frameCount_congr _ _ (bufCnts_buf_removeall i lnum s)
  have hd1 : (buf_removeall i lnum s).anno_dict = s.anno_dict :=
    dict_buf_removeall i lnum s
  have hl1 : (buf_removeall i lnum s).buf_list.length = s.buf_list.length :=
    length_of_fileKeys_eq (fileKeys_buf_removeall i lnum s)
  have hmemc : FRAME_ANNO_ID ∈
        eraseKeys lnum ((buf_removeall i lnum s).buf_list.get? i) →
      ∃ b, (buf_removeall i lnum s).buf_list.get? i = some b ∧
        amem FRAME_ANNO_ID b.annos = true := by
    intro hinm
    cases hgb : (buf_removeall i lnum s).buf_list.get? i with
    | none =>
      rw [hgb] at hinm
      simp [eraseKeys] at hinm
    | some b =>
      rw [hgb] at hinm
      refine ⟨b, rfl, ?_⟩
      have hinm' : FRAME_ANNO_ID ∈
          (b.annos.filter (fun pr => lnum.isNone || lnum == some pr.2.lnum)).map
            Prod.fst := hinm
      apply mem_keys_amem
      rcases List.mem_map.mp hinm' with ⟨pr, hpr, hfst⟩
      exact List.mem_map.mpr ⟨pr, List.mem_of_mem_filter hpr, hfst⟩
  exact FI_erase_block i (eraseKeys lnum ((buf_removeall i lnum s).buf_list.get? i))
    (buf_removeall i lnum s)
    (by rw [hfc1]; exact c1)
    (by rw [hfc1, hd1]; exact c2)
    (by rw [hd1]; exact c3)
    (by rw [hd1]; intro kv hkv; rw [hl1]; exact c4 kv hkv)
    hmemc

theorem FI_delete_all_step (q : String) (l : Option Int)
    (x : BufferSet × List String) (a : Nat) (hx : FI x.1) :
    FI (match x.1.buf_list.get? a with
      | some b =>
        if b.name = q then
          ((delete_all_buf a l x.1).1, x.2 ++ (delete_all_buf a l x.1).2)
        else x
      | none => x).1 := by
  cases hgb : x.1.buf_list.get? a with
  | none => exact hx
  | some b =>
    show FI (if b.name = q then
        ((delete_all_buf a l x.1).1, x.2 ++ (delete_all_buf a l x.1).2)
      else x).1
    by_cases hn : b.name = q
    · rw [if_pos hn]
      exact FI_delete_all_buf a l x.1 hx
    · rw [if_neg hn]
      exact hx

theorem FI_bs_delete_all_some (q : String) (l : Option Int) (s : BufferSet)
    (h : FI s) :
    FI (if ¬ pathIsAbs q then ((s, ([] : List String)), some Err.valueError)
      else (((List.range s.buf_list.length).foldl
        (fun (acc : BufferSet × List String) i =>
          match acc.1.buf_list.get? i with
          | some b =>
            if b.name = q then
              ((delete_all_buf i l acc.1).1, acc.2 ++ (delete_all_buf i l acc.1).2)
            else acc
          | none => acc) (s, [])), none)).1.1 := by
  by_cases habs : pathIsAbs q = true
  · rw [if_neg (not_not_intro habs)]
    exact foldl_inv (fun acc : BufferSet × List String => FI acc.1) _ _ _ h
      (fun x a hx => FI_delete_all_step q l x a hx)
  · rw [if_pos habs]
    exact h

theorem FI_bs_delete_all (p : Option String) (l : Option Int) (s : BufferSet)
    (h : FI s) : FI (bs_delete_all p l s).1.1 := by
  cases p with
  | none =>
    exact foldl_inv (fun acc : BufferSet × List String => FI acc.1) _ _ _ h
      (fun x a hx => FI_delete_all_buf a none x.1 hx)
  | some q => exact FI_bs_delete_all_some q l s h

theorem FI_bs_add_bp (id p : String) (lnum : Int) (s : BufferSet) (h : FI s) :
    FI (bs_add_bp id p lnum s).1 := by
  unfold bs_add_bp
  by_cases h1 : lnum ≤ 0
  · rw [if_pos h1]
    exact h
  rw [if_neg h1]
  by_cases h2 : dmem id s.anno_dict = true
  · rw [if_neg (not_not_intro h2)]
    exact h
  · rw [if_pos h2]
    exact FI_bs_add_anno id p lnum s h

theorem FI_bs_update_bp (id : String) (d : Bool) (s : BufferSet) (h : FI s) :
    FI (bs_update_bp id d s).1 := by
  unfold bs_update_bp
  by_cases h2 : dmem id s.anno_dict = true
  · rw [if_pos h2]
    exact FI_bs_update_anno id d s h
  · rw [if_neg h2]
    exact h

theorem FI_applyOp (s : BufferSet) (op : Op) (h : FI s) : FI (applyOp s op).1 := by
  cases op with
  | addA id p l => exact FI_bs_add_anno id p l s h
  | updateA id d => exact FI_bs_update_anno id d s h
  | deleteA id => exact FI_bs_delete_anno id s h
  | showFrame p l => exact FI_bs_show_frame p l s h
  | deleteAll p l => exact FI_bs_delete_all p l s h
  | addBp id p l => exact FI_bs_add_bp id p l s h
  | updateBp id d => exact FI_bs_update_bp id d s h
  | refFile p =>
    show FI (if ¬ pathIsAbs p then (s, some Err.valueError)
      else ((getBuf p s).2, none)).1
    by_cases habs : pathIsAbs p = true
    · rw [if_neg (not_not_intro habs)]
      obtain ⟨c1, c2, c3, c4⟩ := h
      exact ⟨by rw [frameCount_getBuf]; exact c1,
        by rw [frameCount_getBuf, dict_getBuf]; exact c2,
        by rw [dict_getBuf]; exact c3,
        fun kv hkv => by
          have hkv' : kv ∈ s.anno_dict := by
            rw [dict_getBuf] at hkv
            exact hkv
          exact Nat.lt_of_lt_of_le (c4 kv hkv') (length_getBuf_ge p s)⟩
    · rw [if_pos habs]
      exact h
  | delItem p => exact h

theorem FI_initBS : FI initBS := by
  refine ⟨by decide, by decide, by decide, ?_⟩
  intro kv hkv
  simp [initBS] at hkv

theorem FI_runOps (ops : List Op) : FI (runOps ops) := by
  unfold runOps
  exact foldl_inv FI (fun s op => (applyOp s op).1) ops initBS FI_initBS
    (fun x a hx => FI_applyOp x a hx)

/-! The success path of `show_frame`: exactly one frame marker afterwards. -/

theorem bs_delete_frame_success (s : BufferSet) (hFI : FI s)
    (hdm : dmem FRAME_ANNO_ID s.anno_dict = true)
    (hok : (bs_delete_anno FRAME_ANNO_ID s).2 = none) :
    frameCount (bs_delete_anno FRAME_ANNO_ID s).1 = 0
    ∧ dFrameCnt (bs_delete_anno FRAME_ANNO_ID s).1.anno_dict = 0 := by
  obtain ⟨c1, c2, c3, c4⟩ := hFI
  unfold bs_delete_anno at hok ⊢
  cases hdl : dlookup FRAME_ANNO_ID s.anno_dict with
  | none =>
    unfold dmem at hdm
    rw [hdl] at hdm
    simp at hdm
  | some i =>
    rw [hdl] at hok
    have hok' : (match buf_delete_anno i FRAME_ANNO_ID s with
      | (u, some e) => (u, some e)
      | (u, none) =>
        ({ u with anno_dict := derase FRAME_ANNO_ID u.anno_dict }, none)).2
        = none := hok
    have hin : (FRAME_ANNO_ID, i) ∈ s.anno_dict := dlookup_mem _ _ i hdl
    have hlt : i < s.buf_list.length := c4 _ hin
    obtain ⟨b, hb⟩ := get?_some_of_lt s.buf_list i hlt
    show frameCount (match buf_delete_anno i FRAME_ANNO_ID s with
        | (u, some e) => (u, some e)
        | (u, none) =>
          ({ u with anno_dict := derase FRAME_ANNO_ID u.anno_dict }, none)).1 = 0
      ∧ dFrameCnt (match buf_delete_anno i FRAME_ANNO_ID s with
        | (u, some e) => (u, some e)
        | (u, none) =>
          ({ u with anno_dict := derase FRAME_ANNO_ID u.anno_dict }, none)).1.anno_dict
        = 0
    cases hr : buf_delete_anno i FRAME_ANNO_ID s with
    | mk t e =>
      rw [hr] at hok'
      cases e with
      | some err => simp at hok'
      | none =>
        by_cases hmem : amem FRAME_ANNO_ID b.annos = true
        · have hfc := frameCount_buf_delete_frame i s b hb hmem
          rw [hr] at hfc
          have hfct : frameCount t + 1 = frameCount s := hfc
          have hdict : t.anno_dict = s.anno_dict := by
            have hd := dict_buf_delete_anno i FRAME_ANNO_ID s
            rw [hr] at hd
            exact hd
          have hder : dFrameCnt (derase FRAME_ANNO_ID s.anno_dict) + 1
              = dFrameCnt s.anno_dict := dFrameCnt_derase_frame s.anno_dict hdm
          constructor
          · show frameCount t = 0
            omega
          · show dFrameCnt (derase FRAME_ANNO_ID t.anno_dict) = 0
            rw [hdict]
            omega
        · exfalso
          unfold buf_delete_anno at hr
          simp only [hb] at hr
          rw [if_neg hmem] at hr
          simp at hr

theorem bs_add_frame_fc (p : String) (lnum : Int) (t : BufferSet)
    (hfc : frameCount t = 0)
    (hsucc : (bs_add_anno FRAME_ANNO_ID p lnum t).2 = none) :
    frameCount (bs_add_anno FRAME_ANNO_ID p lnum t).1 = 1 := by
  unfold bs_add_anno at hsucc ⊢
  by_cases h1 : lnum ≤ 0
  · rw [if_pos h1] at hsucc
    simp at hsucc
  rw [if_neg h1] at hsucc ⊢
  by_cases h2 : dmem FRAME_ANNO_ID t.anno_dict = true
  · rw [if_pos h2] at hsucc
    simp at hsucc
  rw [if_neg h2] at hsucc ⊢
  by_cases h3 : pathIsAbs p = true
  · rw [if_neg (not_not_intro h3)] at hsucc ⊢
    obtain ⟨b0, hb0⟩ :=
      get?_some_of_lt (getBuf p t).2.buf_list (getBuf p t).1 (getBuf_lt p t)
    have hfr : frameCount (getBuf p t).2 = 0 := by
      rw [frameCount_getBuf]
      exact hfc
    have hcz : aFrameCnt b0.annos = 0 :=
      frameCntL_zero_buf (getBuf p t).2.buf_list (getBuf p t).1 b0 hfr hb0
    have hmem : amem FRAME_ANNO_ID b0.annos = false := aFrameCnt_zero_amem b0.annos hcz
    have main := frameCount_buf_add_anno_frame (getBuf p t).1 lnum
      { (getBuf p t).2 with anno_dict :=
        (getBuf p t).2.anno_dict ++ [(FRAME_ANNO_ID, (getBuf p t).1)] } b0 hb0 hmem
    show frameCount (buf_add_anno (getBuf p t).1 FRAME_ANNO_ID lnum
      { (getBuf p t).2 with anno_dict :=
        (getBuf p t).2.anno_dict ++ [(FRAME_ANNO_ID, (getBuf p t).1)] }).1 = 1
    rw [main.1]
    have hfr' : frameCount { (getBuf p t).2 with anno_dict :=
        (getBuf p t).2.anno_dict ++ [(FRAME_ANNO_ID, (getBuf p t).1)] } = 0 := hfr
    rw [hfr']
  · rw [if_pos h3] at hsucc
    simp at hsucc

theorem showFrame_success_one (p : String) (lnum : Int) (s : BufferSet)
    (hFI : FI s) (hp : p ≠ "")
    (hsucc : (bs_show_frame (some p) lnum s).2 = none) :
    frameCount (bs_show_frame (some p) lnum s).1 = 1 := by
  obtain ⟨c1, c2, c3, c4⟩ := hFI
  unfold bs_show_frame at hsucc ⊢
  by_cases h1 : lnum ≤ 0
  · rw [if_pos h1] at hsucc
    simp at hsucc
  rw [if_neg h1] at hsucc ⊢
  by_cases hdm : dmem FRAME_ANNO_ID s.anno_dict = true
  · rw [if_pos hdm] at hsucc ⊢
    cases hr : bs_delete_anno FRAME_ANNO_ID s with
    | mk t e =>
      cases e with
      | some err =>
        rw [hr] at hsucc
        simp at hsucc
      | none =>
        rw [hr] at hsucc
        have hdel := bs_delete_frame_success s ⟨c1, c2, c3, c4⟩ hdm (by rw [hr])
        have hfct : frameCount t = 0 := by
          have h0 := hdel.1
          rw [hr] at h0
          exact h0
        show frameCount (if p = "" then ((t, none) : BufferSet × Option Err)
          else bs_add_anno FRAME_ANNO_ID p lnum t).1 = 1
        have hsucc' : (if p = "" then ((t, none) : BufferSet × Option Err)
          else bs_add_anno FRAME_ANNO_ID p lnum t).2 = none := hsucc
        rw [if_neg hp] at hsucc' ⊢
        exact bs_add_frame_fc p lnum t hfct hsucc'
  · rw [if_neg hdm] at hsucc ⊢
    show frameCount (if p = "" then ((s, none) : BufferSet × Option Err)
      else bs_add_anno FRAME_ANNO_ID p lnum s).1 = 1
    have hsucc' : (if p = "" then ((s, none) : BufferSet × Option Err)
      else bs_add_anno FRAME_ANNO_ID p lnum s).2 = none := hsucc
    rw [if_neg hp] at hsucc' ⊢
    have hdmf : dmem FRAME_ANNO_ID s.anno_dict = false := by
      cases hx : dmem FRAME_ANNO_ID s.anno_dict
      · rfl
      · exact absurd hx hdm
    have hdc0 : dFrameCnt s.anno_dict = 0 := dmem_false_cnt s.anno_dict hdmf
    have hfc0 : frameCount s = 0 := by
      by_cases hc : 1 ≤ frameCount s
      · have := c2 hc
        omega
      · omega
    exact bs_add_frame_fc p lnum s hfc0 hsucc'

/-! The outward messages of `show_frame`: the delta splits into the delete
part (empty or a single removeAnno) followed by the add part (no remove
message, at most one add message). -/

theorem msgs_getBuf (p : String) (s : BufferSet) :
    (getBuf p s).2.nb.msgs = s.nb.msgs := by
  unfold getBuf
  split <;> rfl

theorem msgs_remove_shape (i : Nat) (id : String) (s : BufferSet) :
    (remove_anno i id s).nb.msgs = s.nb.msgs
    ∨ ∃ bi ser, (remove_anno i id s).nb.msgs = s.nb.msgs ++ [Msg.removeAnno bi ser] := by
  unfold remove_anno
  split
  · exact Or.inl rfl
  split
  · exact Or.inl rfl
  split
  · exact Or.inr ⟨_, _, rfl⟩
  · exact Or.inl rfl

theorem msgs_buf_delete_shape (i : Nat) (id : String) (s : BufferSet) :
    (buf_delete_anno i id s).1.nb.msgs = s.nb.msgs
    ∨ ∃ bi ser, (buf_delete_anno i id s).1.nb.msgs
        = s.nb.msgs ++ [Msg.removeAnno bi ser] := by
  unfold buf_delete_anno
  split
  · exact Or.inl rfl
  split
  · exact msgs_remove_shape i id s
  · exact Or.inl rfl

theorem msgs_bs_delete_shape (id : String) (s : BufferSet) :
    (bs_delete_anno id s).1.nb.msgs = s.nb.msgs
    ∨ ∃ bi ser, (bs_delete_anno id s).1.nb.msgs
        = s.nb.msgs ++ [Msg.removeAnno bi ser] := by
  unfold bs_delete_anno
  split
  · exact Or.inl rfl
  rename_i j hdl
  have hsh := msgs_buf_delete_shape j id s
  split
  · rename_i u e heq
    rw [heq] at hsh
    exact hsh
  · rename_i u heq
    rw [heq] at hsh
    exact hsh

theorem bp_toggle_noop (i : Nat) (id : String) (s : BufferSet) (b : VimBuffer)
    (a : Anno) (hb : s.buf_list.get? i = some b)
    (ha : alookup id b.annos = some a) (hd : a.disabled = false) :
    bp_toggle i id false s = s := by
  unfold bp_toggle
  simp only [hb, ha]
  rw [if_neg (not_not_intro hd)]

theorem msgs_define_frameanno (i : Nat) (s : BufferSet) :
    ∃ d, (define_frameanno i s).2.nb.msgs = s.nb.msgs ++ d
      ∧ d.countP isRemoveMsg = 0 ∧ d.countP isAddMsg = 0 := by
  unfold define_frameanno
  split
  · exact ⟨[], by simp, by simp, by simp⟩
  rename_i b hget
  split
  · refine ⟨[Msg.defineAnnoType b.buf_id (b.type_num + 1) "frame" "=>" 0xefb735],
      rfl, ?_, ?_⟩
    · simp [List.countP_cons, List.countP_nil, isRemoveMsg]
    · simp [List.countP_cons, List.countP_nil, isAddMsg]
  · exact ⟨[], by simp, by simp, by simp⟩

theorem msgs_define_bpanno (i : Nat) (s : BufferSet) :
    ∃ d, (define_bpanno i s).2.nb.msgs = s.nb.msgs ++ d
      ∧ d.countP isRemoveMsg = 0 ∧ d.countP isAddMsg = 0 := by
  unfold define_bpanno
  split
  · exact ⟨[], by simp, by simp, by simp⟩
  rename_i b hget
  split
  · refine ⟨[Msg.defineAnnoType b.buf_id (b.type_num + 1) "bpEnabled" "bp" 0x0c3def,
      Msg.defineAnnoType b.buf_id (b.type_num + 2) "bpDisabled" "bp" 0x3fef4b],
      ?_, ?_, ?_⟩
    · show (s.nb.msgs ++ [_]) ++ [_] = _
      simp [List.append_assoc]
    · simp [List.countP_cons, List.countP_nil, isRemoveMsg]
    · simp [List.countP_cons, List.countP_nil, isAddMsg]
  · exact ⟨[], by simp, by simp, by simp⟩

theorem msgs_frame_update_main (i : Nat) (id : String) (s : BufferSet) :
    ∃ d, (frame_update i id s).nb.msgs = s.nb.msgs ++ d
      ∧ d.countP isRemoveMsg = 0 ∧ d.countP isAddMsg ≤ 1 := by
  unfold frame_update
  split
  · exact ⟨[], by simp, by simp, by simp⟩
  rename_i b hb
  split
  · exact ⟨[], by simp, by simp, by simp⟩
  rename_i a ha
  split
  · exact ⟨[], by simp, by simp, by simp⟩
  obtain ⟨d0, hd0, h00, h01⟩ := msgs_define_frameanno i s
  refine ⟨d0 ++ [Msg.addAnno b.buf_id a.sernum (define_frameanno i s).1 a.lnum]
    ++ [Msg.setDot b.buf_id a.lnum], ?_, ?_, ?_⟩
  · show ((define_frameanno i s).2.nb.msgs ++ [_]) ++ [_] = _
    rw [hd0]
    simp [List.append_assoc]
  · simp [List.countP_append, List.countP_cons, List.countP_nil, isRemoveMsg, h00]
  · simp [List.countP_append, List.countP_cons, List.countP_nil, isAddMsg, h01]

theorem msgs_bp_place (i : Nat) (id : String) (s : BufferSet) :
    ∃ d, (bp_place i id s).nb.msgs = s.nb.msgs ++ d
      ∧ d.countP isRemoveMsg = 0 ∧ d.countP isAddMsg ≤ 1 := by
  unfold bp_place
  split
  · exact ⟨[], by simp, by simp, by simp⟩
  rename_i b hb
  split
  · exact ⟨[], by simp, by simp, by simp⟩
  rename_i a ha
  split
  · exact ⟨[], by simp, by simp, by simp⟩
  obtain ⟨d0, hd0, h00, h01⟩ := msgs_define_bpanno i s
  refine ⟨d0 ++ [Msg.addAnno b.buf_id a.sernum
      (if a.disabled then (define_bpanno i s).1 + 1 else (define_bpanno i s).1) a.lnum]
    ++ [Msg.setDot b.buf_id a.lnum], ?_, ?_, ?_⟩
  · show ((define_bpanno i s).2.nb.msgs ++ [_]) ++ [_] = _
    rw [hd0]
    simp [List.append_assoc]
  · simp [List.countP_append, List.countP_cons, List.countP_nil, isRemoveMsg, h00]
  · simp [List.countP_append, List.countP_cons, List.countP_nil, isAddMsg, h01]

theorem msgs_anno_update_fresh (i : Nat) (id : String) (s : BufferSet)
    (b : VimBuffer) (a : Anno)
    (hb : s.buf_list.get? i = some b) (ha : alookup id b.annos = some a)
    (hdis : a.disabled = false) :
    ∃ d, (anno_update i id false s).1.nb.msgs = s.nb.msgs ++ d
      ∧ d.countP isRemoveMsg = 0 ∧ d.countP isAddMsg ≤ 1 := by
  unfold anno_update
  simp only [hb, ha]
  by_cases hf : a.isFrame = true
  · rw [if_pos hf]
    exact msgs_frame_update_main i id s
  · rw [if_neg hf]
    rw [bp_toggle_noop i id s b a hb ha hdis]
    exact msgs_bp_place i id s

theorem msgs_buf_update_fresh (i : Nat) (id : String) (s : BufferSet)
    (b : VimBuffer) (a : Anno)
    (hb : s.buf_list.get? i = some b) (ha : alookup id b.annos = some a)
    (hdis : a.disabled = false) :
    ∃ d, (buf_update i (some id) false s).1.nb.msgs = s.nb.msgs ++ d
      ∧ d.countP isRemoveMsg = 0 ∧ d.countP isAddMsg ≤ 1 := by
  unfold buf_update
  simp only [hb]
  by_cases hreg : b.registered = true
  · rw [if_neg (not_not_intro hreg)]
    exact msgs_anno_update_fresh i id s b a hb ha hdis
  · rw [if_pos hreg]
    obtain ⟨d, hd, h0, h1⟩ := msgs_anno_update_fresh i id
      (modifyBuf i (fun bb => { bb with registered := true })
        (sendMsg (.stopDocumentListen b.buf_id)
          (sendMsg (.putBufferNumber b.buf_id b.name)
            (sendMsg (.editFile b.buf_id b.name) s))))
      { b with registered := true } a
      (by
        show (modList i _ (sendMsg (Msg.stopDocumentListen b.buf_id)
          (sendMsg (Msg.putBufferNumber b.buf_id b.name)
            (sendMsg (Msg.editFile b.buf_id b.name) s))).buf_list).get? i = _
        rw [get?_modList]
        show (s.buf_list.get? i).map _ = _
        rw [hb]
        rfl)
      ha hdis
    refine ⟨[Msg.editFile b.buf_id b.name, Msg.putBufferNumber b.buf_id b.name,
      Msg.stopDocumentListen b.buf_id] ++ d, ?_, ?_, ?_⟩
    · rw [hd]
      show (((s.nb.msgs ++ [_]) ++ [_]) ++ [_]) ++ d = _
      simp [List.append_assoc]
    · simp [List.countP_append, List.countP_cons, List.countP_nil, isRemoveMsg, h0]
    · simpa [List.countP_append, List.countP_cons, List.countP_nil, isAddMsg] using h1

theorem msgs_buf_add_anno (i : Nat) (id : String) (lnum : Int) (s : BufferSet) :
    ∃ d, (buf_add_anno i id lnum s).1.nb.msgs = s.nb.msgs ++ d
      ∧ d.countP isRemoveMsg = 0 ∧ d.countP isAddMsg ≤ 1 := by
  unfold buf_add_anno
  split
  · exact ⟨[], by simp, by simp, by simp⟩
  rename_i b hget
  split
  · exact ⟨[], by simp, by simp, by simp⟩
  rename_i hmem
  have halo : alookup id b.annos = none := by
    unfold amem at hmem
    cases hal : alookup id b.annos with
    | none => rfl
    | some x =>
      rw [hal] at hmem
      simp at hmem
  have key : ∀ t : BufferSet, t.buf_list = s.buf_list → t.nb.msgs = s.nb.msgs →
      ∀ n : Nat, ∃ d, (buf_update i (some id) false
        (modifyBuf i (fun bb => { bb with annos := bb.annos ++
          [(id, mkAnno lnum n (id = FRAME_ANNO_ID))] }) t)).1.nb.msgs = s.nb.msgs ++ d
      ∧ d.countP isRemoveMsg = 0 ∧ d.countP isAddMsg ≤ 1 := by
    intro t ht hmsgs n
    obtain ⟨d, hd, h0, h1⟩ := msgs_buf_update_fresh i id
      (modifyBuf i (fun bb => { bb with annos := bb.annos ++
        [(id, mkAnno lnum n (id = FRAME_ANNO_ID))] }) t)
      { b with annos := b.annos ++ [(id, mkAnno lnum n (id = FRAME_ANNO_ID))] }
      (mkAnno lnum n (id = FRAME_ANNO_ID))
      (by
        show (modList i _ t.buf_list).get? i = _
        rw [get?_modList, ht]
        show (s.buf_list.get? i).map _ = _
        rw [hget]
        rfl)
      (alookup_append_none id _ b.annos halo)
      rfl
    refine ⟨d, ?_, h0, h1⟩
    rw [hd]
    show t.nb.msgs ++ d = s.nb.msgs ++ d
    rw [hmsgs]
  by_cases hid : id = FRAME_ANNO_ID
  · rw [if_pos hid]
    cases hfs : s.frame_sernum with
    | some n => exact key s rfl rfl n
    | none =>
      exact key { (freshSernum s).2 with frame_sernum := some (freshSernum s).1 }
        rfl rfl (freshSernum s).1
  · rw [if_neg hid]
    exact key (freshSernum s).2 rfl rfl (freshSernum s).1

theorem msgs_bs_add_anno (id p : String) (lnum : Int) (s : BufferSet) :
    ∃ d, (bs_add_anno id p lnum s).1.nb.msgs = s.nb.msgs ++ d
      ∧ d.countP isRemoveMsg = 0 ∧ d.countP isAddMsg ≤ 1 := by
  unfold bs_add_anno
  by_cases h1 : lnum ≤ 0
  · rw [if_pos h1]
    exact ⟨[], by simp, by simp, by simp⟩
  rw [if_neg h1]
  by_cases h2 : dmem id s.anno_dict = true
  · rw [if_pos h2]
    exact ⟨[], by simp, by simp, by simp⟩
  rw [if_neg h2]
  by_cases h3 : pathIsAbs p = true
  · rw [if_neg (not_not_intro h3)]
    show ∃ d, (buf_add_anno (getBuf p s).1 id lnum
        { (getBuf p s).2 with anno_dict :=
          (getBuf p s).2.anno_dict ++ [(id, (getBuf p s).1)] }).1.nb.msgs
        = s.nb.msgs ++ d
      ∧ d.countP isRemoveMsg = 0 ∧ d.countP isAddMsg ≤ 1
    obtain ⟨d, hd, h0, h1'⟩ := msgs_buf_add_anno (getBuf p s).1 id lnum
      { (getBuf p s).2 with anno_dict :=
        (getBuf p s).2.anno_dict ++ [(id, (getBuf p s).1)] }
    refine ⟨d, ?_, h0, h1'⟩
    rw [hd]
    show (getBuf p s).2.nb.msgs ++ d = s.nb.msgs ++ d
    rw [msgs_getBuf]
  · rw [if_pos h3]
    exact ⟨[], by simp, by simp, by simp⟩

theorem msgs_bs_show_frame (p : String) (lnum : Int) (s : BufferSet) (hp : p ≠ "") :
    ∃ d1 d2, (bs_show_frame (some p) lnum s).1.nb.msgs = (s.nb.msgs ++ d1) ++ d2
      ∧ (d1 = [] ∨ ∃ bi ser, d1 = [Msg.removeAnno bi ser])
      ∧ d2.countP isRemoveMsg = 0 ∧ d2.countP isAddMsg ≤ 1 := by
  unfold bs_show_frame
  by_cases h1 : lnum ≤ 0
  · rw [if_pos h1]
    exact ⟨[], [], by simp, Or.inl rfl, by simp, by simp⟩
  rw [if_neg h1]
  have hshape : (if dmem FRAME_ANNO_ID s.anno_dict then bs_delete_anno FRAME_ANNO_ID s
        else (s, none)).1.nb.msgs = s.nb.msgs
      ∨ ∃ bi ser, (if dmem FRAME_ANNO_ID s.anno_dict then
          bs_delete_anno FRAME_ANNO_ID s else (s, none)).1.nb.msgs
        = s.nb.msgs ++ [Msg.removeAnno bi ser] := by
    split
    · exact msgs_bs_delete_shape FRAME_ANNO_ID s
    · exact Or.inl rfl
  cases hm : (if dmem FRAME_ANNO_ID s.anno_dict then bs_delete_anno FRAME_ANNO_ID s
      else (s, none)) with
  | mk t e =>
    rw [hm] at hshape
    have hshape' : t.nb.msgs = s.nb.msgs
        ∨ ∃ bi ser, t.nb.msgs = s.nb.msgs ++ [Msg.removeAnno bi ser] := hshape
    cases e with
    | some err =>
      rcases hshape' with hs0 | ⟨bi, ser, hs1⟩
      · exact ⟨[], [], by simp [hs0], Or.inl rfl, by simp, by simp⟩
      · exact ⟨[Msg.removeAnno bi ser], [], by simp [hs1],
          Or.inr ⟨bi, ser, rfl⟩, by simp, by simp⟩
    | none =>
      show ∃ d1 d2, (if p = "" then ((t, none) : BufferSet × Option Err)
          else bs_add_anno FRAME_ANNO_ID p lnum t).1.nb.msgs = (s.nb.msgs ++ d1) ++ d2
        ∧ (d1 = [] ∨ ∃ bi ser, d1 = [Msg.removeAnno bi ser])
        ∧ d2.countP isRemoveMsg = 0 ∧ d2.countP isAddMsg ≤ 1
      rw [if_neg hp]
      obtain ⟨d, hd, h0, h1'⟩ := msgs_bs_add_anno FRAME_ANNO_ID p lnum t
      rcases hshape' with hs0 | ⟨bi, ser, hs1⟩
      · exact ⟨[], d, by rw [hd, hs0]; simp, Or.inl rfl, h0, h1'⟩
      · exact ⟨[Msg.removeAnno bi ser], d, by rw [hd, hs1], Or.inr ⟨bi, ser, rfl⟩,
          h0, h1'⟩

/-- C5: in every reachable state at most one frame marker is live
(`frameCount (runOps ops2) ≤ 1`), and when `show_frame` with a non-empty
pathname succeeds on a reachable state it first runs the removal of any
existing frame marker and then places exactly one new one: afterwards
exactly one frame marker is live, and the emitted message delta is a
delete part `d1` — empty or a single removeAnno, sent before any message
for the new location — followed by an add part `d2` holding no remove
message and at most one add message. -/
theorem frame_marker_unique (ops2 ops : List Op) (p : String) (lnum : Int)
    (hp : p ≠ "")
    (hsucc : (bs_show_frame (some p) lnum (runOps ops)).2 = none) :
    frameCount (runOps ops2) ≤ 1
    ∧ frameCount (bs_show_frame (some p) lnum (runOps ops)).1 = 1
    ∧ ∃ d1 d2, (bs_show_frame (some p) lnum (runOps ops)).1.nb.msgs
        = ((runOps ops).nb.msgs ++ d1) ++ d2
      ∧ (d1 = [] ∨ ∃ bi ser, d1 = [Msg.removeAnno bi ser])
      ∧ d2.countP isRemoveMsg = 0 ∧ d2.countP isAddMsg ≤ 1 :=
  ⟨(FI_runOps ops2).1,
   showFrame_success_one p lnum (runOps ops) (FI_runOps ops) hp hsucc,
   msgs_bs_show_frame p lnum (runOps ops) hp⟩

/-- Witness for C5 at Scenario C: after `showFrame("/src/a.c", 10)` the
call `showFrame("/src/b.c", 20)` succeeds and the conclusions hold. -/
theorem frame_marker_unique_w :
    frameCount (runOps [Op.showFrame (some "/src/a.c") 10]) ≤ 1
    ∧ frameCount (bs_show_frame (some "/src/b.c") 20
        (runOps [Op.showFrame (some "/src/a.c") 10])).1 = 1
    ∧ ∃ d1 d2, (bs_show_frame (some "/src/b.c") 20
          (runOps [Op.showFrame (some "/src/a.c") 10])).1.nb.msgs
        = ((runOps [Op.showFrame (some "/src/a.c") 10]).nb.msgs ++ d1) ++ d2
      ∧ (d1 = [] ∨ ∃ bi ser, d1 = [Msg.removeAnno bi ser])
      ∧ d2.countP isRemoveMsg = 0 ∧ d2.countP isAddMsg ≤ 1 :=
  frame_marker_unique [Op.showFrame (some "/src/a.c") 10]
    [Op.showFrame (some "/src/a.c") 10] "/src/b.c" 20
    (by decide) (by decide)

/-- C1 (amended): for every existing placed non-frame marker whose
enabled/disabled state changes, `update_anno` removes the placed marker
and re-adds it REUSING the same serial number: the emitted sequence is
removeAnno(serial); addAnno(the same serial, the category picked by the
new disabled flag); setDot — and the stored marker still carries the
original serial (`Annotation.update` passes `self.sernum`, set only in
`__init__`, to both `removeanno` and `addanno`). -/
theorem toggle_reuses_serial (s : BufferSet) (id : String) (d : Bool)
    (i : Nat) (b : VimBuffer) (a : Anno)
    (hdl : dlookup id s.anno_dict = some i)
    (hb : s.buf_list.get? i = some b)
    (ha : alookup id b.annos = some a)
    (hreg : b.registered = true)
    (hset : a.is_set = true)
    (hnf : a.isFrame = false)
    (hdiff : a.disabled ≠ d)
    (htn : b.bp_tnum ≠ 0) :
    (bs_update_anno id d s).1.nb.msgs
      = s.nb.msgs ++ [Msg.removeAnno b.buf_id a.sernum,
          Msg.addAnno b.buf_id a.sernum
            (if d then b.bp_tnum + 1 else b.bp_tnum) a.lnum,
          Msg.setDot b.buf_id a.lnum]
    ∧ ∃ b2 a2, (bs_update_anno id d s).1.buf_list.get? i = some b2
        ∧ alookup id b2.annos = some a2 ∧ a2.sernum = a.sernum := by
  unfold bs_update_anno
  simp only [hdl]
  unfold buf_update
  simp only [hb]
  rw [if_neg (not_not_intro hreg)]
  unfold anno_update
  simp only [hb, ha]
  rw [if_neg (by rw [hnf]; exact Bool.false_ne_true)]
  have hsrem : remove_anno i id s
      = modifyBuf i (togUnset id) (sendMsg (.removeAnno b.buf_id a.sernum) s) := by
    unfold remove_anno
    simp only [hb, ha]
    rw [if_pos (by simp [hreg, hset])]
    rfl
  have hstog : bp_toggle i id d s
      = modifyBuf i (togDis id d) (modifyBuf i (togUnset id)
          (sendMsg (.removeAnno b.buf_id a.sernum) s)) := by
    unfold bp_toggle
    simp only [hb, ha]
    rw [if_pos hdiff, hsrem]
    rfl
  rw [hstog]
  have hb1 : (modifyBuf i (togDis id d) (modifyBuf i (togUnset id)
      (sendMsg (.removeAnno b.buf_id a.sernum) s))).buf_list.get? i
      = some (togDis id d (togUnset id b)) := by
    show (modList i _ (modList i _
      (sendMsg (.removeAnno b.buf_id a.sernum) s).buf_list)).get? i = _
    rw [get?_modList, get?_modList]
    show ((s.buf_list.get? i).map _).map _ = _
    rw [hb]
    rfl
  have ha1 : alookup id (togDis id d (togUnset id b)).annos
      = some { a with is_set := false, disabled := d } := by
    show alookup id (amodify id _ (amodify id _ b.annos)) = _
    rw [alookup_amodify, alookup_amodify, ha]
    rfl
  unfold bp_place
  simp only [hb1, ha1]
  rw [if_neg (fun hc => Bool.false_ne_true hc)]
  have hdef : define_bpanno i (modifyBuf i (togDis id d) (modifyBuf i (togUnset id)
      (sendMsg (.removeAnno b.buf_id a.sernum) s)))
      = (b.bp_tnum, modifyBuf i (togDis id d) (modifyBuf i (togUnset id)
          (sendMsg (.removeAnno b.buf_id a.sernum) s))) := by
    unfold define_bpanno
    simp only [hb1]
    rw [if_neg (show ¬ ((togDis id d (togUnset id b)).bp_tnum = 0) from htn)]
    rfl
  rw [hdef]
  constructor
  · show (((s.nb.msgs ++ [Msg.removeAnno b.buf_id a.sernum])
        ++ [Msg.addAnno b.buf_id a.sernum
          (if d then b.bp_tnum + 1 else b.bp_tnum) a.lnum])
        ++ [Msg.setDot b.buf_id a.lnum]) = _
    simp [List.append_assoc]
  · refine ⟨togSet id { togDis id d (togUnset id b) with
        cur_lnum := some a.lnum, cur_col := some 0 },
      { a with disabled := d, is_set := true }, ?_, ?_, rfl⟩
    · show (modList i _ (modList i _ (modList i _ (modList i _
        s.buf_list)))).get? i = _
      rw [get?_modList, get?_modList, get?_modList, get?_modList]
      show ((((s.buf_list.get? i).map _).map _).map _).map _ = _
      rw [hb]
      rfl
    · show alookup id (amodify id _ (amodify id _ (amodify id _ b.annos))) = _
      rw [alookup_amodify, alookup_amodify, alookup_amodify, ha]
      rfl

/-- Witness for C1's amended statement: in the Scenario A/B state,
disabling "bp1" emits removeAnno(1), addAnno with the SAME serial 1 and
the bpDisabled category 2, and setDot; the stored marker keeps serial 1. -/
theorem toggle_reuses_serial_w :
    (bs_update_anno "bp1" true wState).1.nb.msgs
      = wState.nb.msgs ++ [Msg.removeAnno 1 1, Msg.addAnno 1 1 2 42,
          Msg.setDot 1 42]
    ∧ ∃ b2 a2, (bs_update_anno "bp1" true wState).1.buf_list.get? 0 = some b2
        ∧ alookup "bp1" b2.annos = some a2 ∧ a2.sernum = 1 :=
  toggle_reuses_serial wState "bp1" true 0 wBuf wAnno
    (by decide) (by decide) (by decide) (by decide) (by decide) (by decide)
    (by decide) (by decide)

end Pyclewn
